import Mathlib

/-!
Verification of the wallet risk scoring and transaction-graph clustering
engine of the StarkSquad repository.  The definitions below are a shallow
embedding of the TypeScript source:

* `src/app/risk-factors.ts` — risk factor evaluators, `aggregateRiskFactors`,
  `getClusters`;
* `src/app/threat-intelligence-config.ts` — `aggregateThreatData`,
  `getHighestRisk`, `getFallbackThreatLevel`, `staticRiskCheck`,
  `calculateOverallRiskLevel`;
* the page component (`handleAnalyze`) and the free threat analyzer
  (`FreeThreatAnalyzer.analyzeAddress`, `FreeThreatAnalyzer.calculateRiskLevel`).

JavaScript numbers are embedded as `Rat` (amounts, confidences, scores that
can be fractional), timestamps as `Int` (epoch milliseconds), counters as
`Nat`.  The wall-clock reference `Date.now()` is passed explicitly as a
parameter `now`.
-/

/-- Transaction direction, the `type` field of the `Transaction` interface. -/
inductive TxType where
  | incoming
  | outgoing
deriving DecidableEq, Repr

/-- The `Transaction` interface from `src/app/page.tsx`. -/
structure Transaction where
  hash : String
  type : TxType
  token : String
  amount : ℚ
  counterparty : String
  timestamp : Int
  gasUsed : Nat
  contractAddress : Option String
deriving DecidableEq, Repr

/-- The `TokenBalance` interface from `src/app/page.tsx`. -/
structure TokenBalance where
  symbol : String
  balance : String
  value : String
  contractAddress : Option String
  decimals : Option Nat
deriving DecidableEq, Repr

/-- The `metrics` record inside the `WalletData` interface. -/
structure Metrics where
  totalTransactions : Nat
  totalGasSpent : String
  uniqueCounterparties : Nat
  activeDays : Nat
  contractsInteracted : Nat
deriving DecidableEq, Repr

/-- The part of the `WalletData` interface read by `aggregateRiskFactors`. -/
structure WalletData where
  address : String
  transactions : List Transaction
  tokenBalances : List TokenBalance
  metrics : Metrics
deriving DecidableEq, Repr

/-- `MIXER_ADDRESSES` from `risk-factors.ts` (an empty stub list). -/
def MIXER_ADDRESSES : List String := []

/-- `SCAM_CONTRACTS` from `risk-factors.ts` (an empty stub list). -/
def SCAM_CONTRACTS : List String := []

/-- `BLACKLISTED_ADDRESSES` from `risk-factors.ts` (an empty stub list). -/
def BLACKLISTED_ADDRESSES : List String := []

/-- `SCAM_TOKENS` from `risk-factors.ts` (an empty stub list). -/
def SCAM_TOKENS : List String := []

/-- `checkHighFrequency`: more than 10 transactions in the trailing hour
relative to `now` contribute 20. -/
def checkHighFrequency (now : Int) (transactions : List Transaction) : Nat :=
  let oneHourAgo := now - 60 * 60 * 1000
  let recentTxs := transactions.filter (fun tx => decide (tx.timestamp > oneHourAgo))
  if recentTxs.length > 10 then 20 else 0

/-- `checkMixerUsage`: any transaction whose contract address is in the
mixer list contributes 30. -/
def checkMixerUsage (transactions : List Transaction) : Nat :=
  if transactions.any (fun tx => MIXER_ADDRESSES.contains (tx.contractAddress.getD ""))
  then 30 else 0

/-- `checkScamContractInteraction`: any transaction whose contract address is
in the scam contract list contributes 30. -/
def checkScamContractInteraction (transactions : List Transaction) : Nat :=
  if transactions.any (fun tx => SCAM_CONTRACTS.contains (tx.contractAddress.getD ""))
  then 30 else 0

/-- `checkAbnormalGas`: any transaction with gas used above 1,000,000
contributes 10. -/
def checkAbnormalGas (transactions : List Transaction) : Nat :=
  if transactions.any (fun tx => decide (tx.gasUsed > 1000000)) then 10 else 0

/-- `checkReceivedFromBlacklist`: any incoming transaction from a blacklisted
counterparty contributes 40. -/
def checkReceivedFromBlacklist (transactions : List Transaction) : Nat :=
  if transactions.any (fun tx =>
      tx.type = TxType.incoming ∧ BLACKLISTED_ADDRESSES.contains tx.counterparty)
  then 40 else 0

/-- `checkSentToBlacklist`: any outgoing transaction to a blacklisted
counterparty contributes 40. -/
def checkSentToBlacklist (transactions : List Transaction) : Nat :=
  if transactions.any (fun tx =>
      tx.type = TxType.outgoing ∧ BLACKLISTED_ADDRESSES.contains tx.counterparty)
  then 40 else 0

/-- `checkFaucetOnly`: unimplemented stub, always 0. -/
def checkFaucetOnly (_transactions : List Transaction) : Nat := 0

/-- `checkScamTokens`: any held token whose symbol is in the scam token list
contributes 20. -/
def checkScamTokens (tokenBalances : List TokenBalance) : Nat :=
  if tokenBalances.any (fun token => SCAM_TOKENS.contains token.symbol) then 20 else 0

/-- `checkLargeInflowOutflow`: any transaction of amount above 10,000
contributes 15. -/
def checkLargeInflowOutflow (transactions : List Transaction) : Nat :=
  if transactions.any (fun tx => decide (tx.amount > 10000)) then 15 else 0

/-- `checkWalletAge`: the earliest transaction being less than 7 days old
relative to `now` contributes 20.  The `metrics` argument is taken but unused,
exactly as in the source. -/
def checkWalletAge (now : Int) (_metrics : Metrics) (transactions : List Transaction) : Nat :=
  match transactions with
  | [] => 0
  | t :: _ =>
    let firstTx := transactions.foldl
      (fun m tx => if tx.timestamp < m then tx.timestamp else m) t.timestamp
    let ageDays : ℚ := ((now - firstTx : Int) : ℚ) / (1000 * 60 * 60 * 24)
    if ageDays < 7 then 20 else 0

/-- `checkTotalTransactions`: more than 200 total transactions contribute 10. -/
def checkTotalTransactions (metrics : Metrics) : Nat :=
  if metrics.totalTransactions > 200 then 10 else 0

/-- `checkSocialLinks`: unimplemented stub, always 0. -/
def checkSocialLinks : Nat := 0

/-- `checkOGNFTs`: unimplemented stub, always 0. -/
def checkOGNFTs : Nat := 0

/-- The `"incoming"` / `"outgoing"` string of a transaction type. -/
def typeString : TxType → String
  | TxType.incoming => "incoming"
  | TxType.outgoing => "outgoing"

/-- The `[tx.counterparty, tx.type].join(":")` key used by `checkWashTrading`. -/
def txKey (tx : Transaction) : String :=
  tx.counterparty ++ ":" ++ typeString tx.type

/-- The `pairCounts` map of `checkWashTrading`: how many transactions with a
truthy counterparty produce the given key. -/
def pairCount (transactions : List Transaction) (key : String) : Nat :=
  (transactions.filter (fun tx => decide (tx.counterparty ≠ "") && decide (txKey tx = key))).length

/-- The first field of `key.split(":")`: the characters before the first colon. -/
def keyCounterparty (key : String) : String :=
  String.mk (key.toList.takeWhile (fun c => decide (c ≠ ':')))

/-- `checkWashTrading`: some counterparty with more than 3 incoming and more
than 3 outgoing transactions contributes 25.  The source keys the counts by
the string `counterparty ++ ":" ++ type` and recovers the counterparty by
splitting the key at the first colon; this embedding reproduces that. -/
def checkWashTrading (transactions : List Transaction) : Nat :=
  let keys := (transactions.filter (fun tx => decide (tx.counterparty ≠ ""))).map txKey
  let suspicious := keys.any (fun key =>
    let counterparty := keyCounterparty key
    decide (pairCount transactions (counterparty ++ ":incoming") > 3) &&
    decide (pairCount transactions (counterparty ++ ":outgoing") > 3))
  if suspicious then 25 else 0

/-- `checkCircularTransactions`: an incoming and an outgoing transaction with
the same truthy counterparty, timestamps within 24 hours and amounts within
0.0001 of each other, contribute 25.  The source groups transactions by
counterparty and pairs the incoming with the outgoing ones of each group. -/
def checkCircularTransactions (transactions : List Transaction) : Nat :=
  let counterparties :=
    (transactions.filter (fun tx => decide (tx.counterparty ≠ ""))).map (fun tx => tx.counterparty)
  let found := counterparties.any (fun c =>
    let txs := transactions.filter (fun tx => decide (tx.counterparty = c))
    let ins := txs.filter (fun t => decide (t.type = TxType.incoming))
    let outs := txs.filter (fun t => decide (t.type = TxType.outgoing))
    ins.any (fun inc => outs.any (fun out =>
      decide (|(inc.timestamp - out.timestamp : Int)| < 1000 * 60 * 60 * 24) &&
      decide (|inc.amount - out.amount| < (1 : ℚ) / 10000))))
  if found then 25 else 0

/-- Ascending insertion of a rational into a sorted list. -/
def insertSorted (x : ℚ) : List ℚ → List ℚ
  | [] => [x]
  | y :: ys => if x ≤ y then x :: y :: ys else y :: insertSorted x ys

/-- Ascending sort of rationals, the embedding of `.sort((a, b) => a - b)`;
any correct ascending sort produces the same list for a given multiset. -/
def sortRats : List ℚ → List ℚ
  | [] => []
  | x :: xs => insertSorted x (sortRats xs)

/-- The UTC hour of an epoch-millisecond timestamp, the embedding of
`new Date(ms).getUTCHours()`: floor-divide by 3,600,000 and take the
nonnegative remainder modulo 24. -/
def getUTCHours (ms : Int) : Int :=
  (ms.fdiv 3600000).emod 24

/-- `checkAnomalies`: with at least 5 transactions, a transaction larger than
10 times the median amount, or more than 3 transactions in UTC hours 2 to 5,
contribute 15. -/
def checkAnomalies (transactions : List Transaction) : Nat :=
  if transactions.length < 5 then 0
  else
    let amounts := sortRats (transactions.map (fun tx => tx.amount))
    let median := amounts.getD (amounts.length / 2) 0
    let largeTx := transactions.any (fun tx => decide (tx.amount > median * 10))
    let oddHourTxs := transactions.filter (fun tx =>
      let hour := getUTCHours tx.timestamp
      decide (2 ≤ hour) && decide (hour ≤ 5))
    if largeTx || oddHourTxs.length > 3 then 15 else 0

/-- The result record of `aggregateRiskFactors`. -/
structure RiskResult where
  score : Nat
  breakdown : List (String × Nat)
deriving DecidableEq, Repr

/-- `aggregateRiskFactors`: build the sixteen-entry breakdown object and sum
its values.  The object literal of the source is embedded as an association
list in the same key order. -/
def aggregateRiskFactors (now : Int) (walletData : WalletData) : RiskResult :=
  let transactions := walletData.transactions
  let tokenBalances := walletData.tokenBalances
  let metrics := walletData.metrics
  let breakdown : List (String × Nat) :=
    [("highFrequency", checkHighFrequency now transactions),
     ("mixerUsage", checkMixerUsage transactions),
     ("scamContract", checkScamContractInteraction transactions),
     ("abnormalGas", checkAbnormalGas transactions),
     ("receivedFromBlacklist", checkReceivedFromBlacklist transactions),
     ("sentToBlacklist", checkSentToBlacklist transactions),
     ("faucetOnly", checkFaucetOnly transactions),
     ("scamTokens", checkScamTokens tokenBalances),
     ("largeInflowOutflow", checkLargeInflowOutflow transactions),
     ("walletAge", checkWalletAge now metrics transactions),
     ("totalTransactions", checkTotalTransactions metrics),
     ("socialLinks", checkSocialLinks),
     ("ogNFTs", checkOGNFTs),
     ("washTrading", checkWashTrading transactions),
     ("circularTransactions", checkCircularTransactions transactions),
     ("anomalies", checkAnomalies transactions)]
  { score := (breakdown.map Prod.snd).sum, breakdown := breakdown }

/-- The three-level risk classification applied to the aggregate score in
`handleAnalyze` of the page component. -/
inductive SimpleRiskLevel where
  | low
  | medium
  | high
deriving DecidableEq, Repr

/-- The risk level assignment of `handleAnalyze`: 60 and above is high,
30 and above is medium, otherwise low. -/
def deriveRiskLevel (score : Nat) : SimpleRiskLevel :=
  if score ≥ 60 then SimpleRiskLevel.high
  else if score ≥ 30 then SimpleRiskLevel.medium
  else SimpleRiskLevel.low

/-- The names of the sixteen registered evaluators, in the key order of the
breakdown object literal of `aggregateRiskFactors`. -/
def registeredEvaluators : List String :=
  ["highFrequency", "mixerUsage", "scamContract", "abnormalGas",
   "receivedFromBlacklist", "sentToBlacklist", "faucetOnly", "scamTokens",
   "largeInflowOutflow", "walletAge", "totalTransactions", "socialLinks",
   "ogNFTs", "washTrading", "circularTransactions", "anomalies"]

/-- The all-zero breakdown produced on empty inputs. -/
def zeroBreakdown : List (String × Nat) := registeredEvaluators.map (fun k => (k, 0))

/-- A single recent incoming transaction of amount 50,000: the scenario input
of the large-inflow test, with the timestamp taken at evaluation time. -/
def txC6 : Transaction :=
  { hash := "h", type := TxType.incoming, token := "ETH", amount := 50000,
    counterparty := "X", timestamp := 1700000000000, gasUsed := 0, contractAddress := none }

/-- The wallet record holding only `txC6`. -/
def wdC6 : WalletData :=
  { address := "0xW", transactions := [txC6], tokenBalances := [],
    metrics := ⟨1, "0", 1, 1, 1⟩ }

/-- Twelve transactions with one counterparty inside the last hour before
epoch millisecond 1,700,000,000,000: six incoming (one of amount 50,000 with
heavy gas) and six outgoing, designed to trigger every reachable factor. -/
def highRiskTxs : List Transaction :=
  [{ hash := "t1", type := TxType.incoming, token := "ETH", amount := 1,
     counterparty := "C", timestamp := 1699999999000, gasUsed := 0, contractAddress := none },
   { hash := "t2", type := TxType.incoming, token := "ETH", amount := 1,
     counterparty := "C", timestamp := 1699999998000, gasUsed := 0, contractAddress := none },
   { hash := "t3", type := TxType.incoming, token := "ETH", amount := 1,
     counterparty := "C", timestamp := 1699999997000, gasUsed := 0, contractAddress := none },
   { hash := "t4", type := TxType.incoming, token := "ETH", amount := 1,
     counterparty := "C", timestamp := 1699999996000, gasUsed := 0, contractAddress := none },
   { hash := "t5", type := TxType.incoming, token := "ETH", amount := 1,
     counterparty := "C", timestamp := 1699999995000, gasUsed := 0, contractAddress := none },
   { hash := "t6", type := TxType.incoming, token := "ETH", amount := 50000,
     counterparty := "C", timestamp := 1699999994000, gasUsed := 2000000, contractAddress := none },
   { hash := "t7", type := TxType.outgoing, token := "ETH", amount := 1,
     counterparty := "C", timestamp := 1699999993000, gasUsed := 0, contractAddress := none },
   { hash := "t8", type := TxType.outgoing, token := "ETH", amount := 1,
     counterparty := "C", timestamp := 1699999992000, gasUsed := 0, contractAddress := none },
   { hash := "t9", type := TxType.outgoing, token := "ETH", amount := 1,
     counterparty := "C", timestamp := 1699999991000, gasUsed := 0, contractAddress := none },
   { hash := "t10", type := TxType.outgoing, token := "ETH", amount := 1,
     counterparty := "C", timestamp := 1699999990000, gasUsed := 0, contractAddress := none },
   { hash := "t11", type := TxType.outgoing, token := "ETH", amount := 1,
     counterparty := "C", timestamp := 1699999989000, gasUsed := 0, contractAddress := none },
   { hash := "t12", type := TxType.outgoing, token := "ETH", amount := 1,
     counterparty := "C", timestamp := 1699999988000, gasUsed := 0, contractAddress := none }]

/-- A wallet record around `highRiskTxs` whose metrics report 201 total
transactions. -/
def highRiskWallet : WalletData :=
  { address := "0xW", transactions := highRiskTxs, tokenBalances := [],
    metrics := ⟨201, "0", 1, 1, 1⟩ }

/-- The four risk tiers of the threat intelligence layer. -/
inductive RiskTier where
  | low
  | medium
  | high
  | critical
deriving DecidableEq, Repr

/-- The numeric position of a tier in the ordering
critical > high > medium > low. -/
def RiskTier.rank : RiskTier → Nat
  | RiskTier.low => 0
  | RiskTier.medium => 1
  | RiskTier.high => 2
  | RiskTier.critical => 3

/-- One provider response, the `Partial<ThreatLevel>` shape of the source:
every field may be absent. -/
structure ProviderData where
  risk : Option RiskTier
  categories : Option (List String)
  confidence : Option ℚ
  sources : Option (List String)
deriving DecidableEq, Repr

/-- The merged `ThreatLevel` record. -/
structure ThreatLevel where
  risk : RiskTier
  categories : List String
  confidence : ℚ
  lastUpdated : Int
  sources : List String
deriving DecidableEq, Repr

/-- Deduplication keeping the first occurrence of each element, the embedding
of the JavaScript `[...new Set(xs)]` idiom. -/
def setDedupAux {α : Type} [DecidableEq α] (seen : List α) : List α → List α
  | [] => []
  | x :: xs => if x ∈ seen then setDedupAux seen xs else x :: setDedupAux (x :: seen) xs

/-- `[...new Set(l)]`: `l` without its repeated elements, first occurrences
kept in order. -/
def setDedup {α : Type} [DecidableEq α] (l : List α) : List α := setDedupAux [] l

/-- `getHighestRisk`: the maximal tier present in the list, defaulting to
low. -/
def getHighestRisk (risks : List RiskTier) : RiskTier :=
  if RiskTier.critical ∈ risks then RiskTier.critical
  else if RiskTier.high ∈ risks then RiskTier.high
  else if RiskTier.medium ∈ risks then RiskTier.medium
  else RiskTier.low

/-- The character class `[1-9a-f]` of the leading-zero pattern, case
insensitive. -/
def isHex19 (c : Char) : Bool :=
  ('1' ≤ c && c ≤ '9') || ('a' ≤ c && c ≤ 'f') || ('A' ≤ c && c ≤ 'F')

/-- After the zero run: skip further zeros, then require a `[1-9a-f]` digit. -/
def afterZeros : List Char → Bool
  | [] => false
  | c :: cs => if c = '0' then afterZeros cs else isHex19 c

/-- The regular expression `^0x0+[1-9a-f]` (case insensitive) over the
character list of an address. -/
def leadingZeroPattern (address : String) : Bool :=
  match address.toList with
  | c0 :: cx :: rest =>
    (c0 = '0') && (cx = 'x' || cx = 'X') &&
    (match rest with
     | [] => false
     | c :: cs => (c = '0') && (if c = '0' then afterZeros cs else false))
  | _ => false

/-- The regular expression `^0x(dead|beef|cafe|babe)` (case insensitive). -/
def vanityPattern (address : String) : Bool :=
  let lower := address.toList.map Char.toLower
  ["0xdead".toList, "0xbeef".toList, "0xcafe".toList, "0xbabe".toList].any
    (fun p => p.isPrefixOf lower)

/-- `staticRiskCheck`: medium for an address matching one of the suspicious
patterns, low otherwise. -/
def staticRiskCheck (address : String) : RiskTier :=
  if leadingZeroPattern address || vanityPattern address then RiskTier.medium
  else RiskTier.low

/-- `getFallbackThreatLevel`: the static-analysis verdict used when no
provider succeeded. -/
def getFallbackThreatLevel (now : Int) (address : String) : ThreatLevel :=
  { risk := staticRiskCheck address, categories := [], confidence := 0.3,
    lastUpdated := now, sources := ["Static Analysis"] }

/-- The fulfilled results of the settled provider promises: the
`filter fulfilled` and `map value` steps of `aggregateThreatData`. -/
def validProviderResults (results : List (Except Unit ProviderData)) : List ProviderData :=
  results.filterMap (fun r => match r with
    | Except.ok v => some v
    | Except.error _ => none)

/-- `aggregateThreatData`: merge the fulfilled provider results, or fall back
to static analysis when none succeeded.  `now` stands for the `new Date()`
taken at merge time. -/
def aggregateThreatData (now : Int) (results : List (Except Unit ProviderData))
    (address : String) : ThreatLevel :=
  let validResults := validProviderResults results
  if validResults.isEmpty then getFallbackThreatLevel now address
  else
    let riskLevels := validResults.filterMap (fun r => r.risk)
    let highestRisk := getHighestRisk riskLevels
    let allCategories := validResults.flatMap (fun r => r.categories.getD [])
    let uniqueCategories := setDedup allCategories
    let confidences := (validResults.map (fun r => r.confidence.getD 0)).filter
      (fun c => decide (0 < c))
    let avgConfidence : ℚ :=
      if confidences.length > 0 then confidences.sum / (confidences.length : ℚ) else 0
    let allSources := validResults.flatMap (fun r => r.sources.getD [])
    let uniqueSources := setDedup allSources
    { risk := highestRisk, categories := uniqueCategories, confidence := avgConfidence,
      lastUpdated := now, sources := uniqueSources }

/-- `calculateOverallRiskLevel` of `EnhancedRiskAnalyzer`: the combined level
from the heuristic score and the threat-intel tier. -/
def calculateOverallRiskLevel (score : ℚ) (threatLevel : RiskTier) : RiskTier :=
  if threatLevel = RiskTier.critical ∨ score ≥ 80 then RiskTier.critical
  else if threatLevel = RiskTier.high ∨ score ≥ 60 then RiskTier.high
  else if score ≥ 30 then RiskTier.medium
  else RiskTier.low

/-- `FreeThreatAnalyzer.calculateRiskLevel`: the purely score-driven level of
the free analyzer. -/
def FreeThreatAnalyzer.calculateRiskLevel (score : ℚ) : RiskTier :=
  if score ≥ 80 then RiskTier.critical
  else if score ≥ 60 then RiskTier.high
  else if score ≥ 30 then RiskTier.medium
  else RiskTier.low

/-- The result shape of `checkWithAbuseIPDB`. -/
structure AbuseData where
  isBlacklisted : Bool
  confidence : ℚ
  categories : List String
deriving DecidableEq, Repr

/-- The result shape of `checkWithScamDatabase` (the last-reported date is
not read by the analyzer and is elided). -/
structure ScamData where
  isScam : Bool
  reportCount : Nat
deriving DecidableEq, Repr

/-- The settled outcomes of the network calls made during one
`FreeThreatAnalyzer.analyzeAddress` run: each field is the outcome of one
upstream fetch, `Except.error` standing for a thrown network error. -/
structure FreeEnv where
  githubFetch : Except Unit (List String)
  abuseKeyConfigured : Bool
  abuseFetch : Except Unit AbuseData
  scamFetch : Except Unit ScamData
  starknetFetch : Except Unit (Option String)
deriving Repr

/-- The verdict returned by `FreeThreatAnalyzer.analyzeAddress`. -/
structure FreeVerdict where
  riskScore : ℚ
  riskLevel : RiskTier
  sources : List String
  findings : List String
  confidence : ℚ
deriving DecidableEq, Repr

/-- `GitHubThreatIntelligence.fetchThreatLists` catches internally and
returns empty lists on failure; only the scam address list is read by the
analyzer. -/
def fetchThreatListsScamAddresses (env : FreeEnv) : List String :=
  match env.githubFetch with
  | Except.ok l => l
  | Except.error _ => []

/-- `FreeAPIThreatChecker.checkWithAbuseIPDB` catches internally and returns
a negative default on failure. -/
def checkWithAbuseIPDB (env : FreeEnv) : AbuseData :=
  match env.abuseFetch with
  | Except.ok d => d
  | Except.error _ => { isBlacklisted := false, confidence := 0, categories := [] }

/-- `FreeAPIThreatChecker.checkWithScamDatabase` catches internally and
returns a negative default on failure. -/
def checkWithScamDatabase (env : FreeEnv) : ScamData :=
  match env.scamFetch with
  | Except.ok d => d
  | Except.error _ => { isScam := false, reportCount := 0 }

/-- `BlockchainThreatIntelligence.checkStarknetAddress` catches internally;
it reports a contract exactly when a class hash is present.  The pair is
(isContract, classHash). -/
def checkStarknetAddress (env : FreeEnv) : Bool × Option String :=
  match env.starknetFetch with
  | Except.ok ch => (ch.isSome, ch)
  | Except.error _ => (false, none)

/-- `FreeThreatAnalyzer.analyzeAddress`: accumulate findings, sources, risk
and confidence over the four checks, then derive the averaged confidence and
the level.  Interpolated report counts inside finding strings are elided;
every branch condition, contribution and list is as in the source. -/
def FreeThreatAnalyzer.analyzeAddress (env : FreeEnv) (address : String) : FreeVerdict :=
  let scamAddresses := fetchThreatListsScamAddresses env
  let githubHit := scamAddresses.contains address.toLower
  let abuse := checkWithAbuseIPDB env
  let abuseHit := env.abuseKeyConfigured && abuse.isBlacklisted
  let scam := checkWithScamDatabase env
  let scamHit := scam.isScam
  let stark := checkStarknetAddress env
  let starkHit := stark.1 && stark.2.isNone
  let totalRisk : ℚ :=
    (if githubHit then 60 else 0) +
    (if abuseHit then abuse.confidence * 50 else 0) +
    (if scamHit then min ((scam.reportCount : ℚ) * 10) 40 else 0) +
    (if starkHit then 15 else 0)
  let confidence : ℚ :=
    (if githubHit then 0.7 else 0) + (if abuseHit then 0.8 else 0) +
    (if scamHit then 0.6 else 0) + (if starkHit then 0.4 else 0)
  let sources : List String :=
    (if githubHit then ["GitHub Community Lists"] else []) ++
    (if abuseHit then ["AbuseIPDB"] else []) ++
    (if scamHit then ["Scam Database"] else []) ++
    (if starkHit then ["Starknet Explorer"] else [])
  let findings : List String :=
    (if githubHit then ["Address found in community scam database"] else []) ++
    (if abuseHit then ["Flagged by AbuseIPDB"] else []) ++
    (if scamHit then ["Reported as scam"] else []) ++
    (if starkHit then ["Unverified contract - exercise caution"] else [])
  let avgConfidence : ℚ := if confidence > 0 then confidence / (sources.length : ℚ) else 0.3
  { riskScore := min totalRisk 100,
    riskLevel := FreeThreatAnalyzer.calculateRiskLevel totalRisk,
    sources := sources,
    findings := if findings.isEmpty then ["No immediate threats detected"] else findings,
    confidence := avgConfidence }

/-- The environment in which every upstream call of the free analyzer
fails. -/
def envAllFail : FreeEnv :=
  { githubFetch := Except.error (), abuseKeyConfigured := false,
    abuseFetch := Except.error (), scamFetch := Except.error (),
    starknetFetch := Except.error () }

/-- A sample settled fan-out: two fulfilled providers (tiers high and
medium, confidences 1 and 0, overlapping category tags) and one rejected
provider. -/
def sampleProviderResults : List (Except Unit ProviderData) :=
  [Except.ok ⟨some RiskTier.high, some ["scam"], some 1, some ["A"]⟩,
   Except.error (),
   Except.ok ⟨some RiskTier.medium, some ["scam", "phish"], some 0, some ["B"]⟩]

/-- A graph node as consumed by `getClusters`: only the id is read. -/
structure Node where
  id : String
deriving DecidableEq, Repr

/-- A graph link as produced by the page graph builder: `getClusters` reads
only `source` and `target`; the transaction `value` rides along unused. -/
structure Link where
  source : String
  target : String
  value : ℚ
deriving DecidableEq, Repr

/-- The adjacency set of `v`: targets of links leaving `v` and sources of
links entering `v`, deduplicated as a JavaScript `Set`.  The source builds
these sets only for node ids; the traversal below accounts for that by
checking id membership before reading the adjacency. -/
def adjOf (links : List Link) (v : String) : List String :=
  setDedup ((links.filter (fun l => decide (l.source = v))).map (fun l => l.target) ++
            (links.filter (fun l => decide (l.target = v))).map (fun l => l.source))

/-- The traversal loop of `getClusters`: pop from the end of the queue, skip
visited ids, otherwise mark the id visited, record its cluster id and push
its unvisited neighbours.  Popping an id that is not a node id dereferences a
missing adjacency entry, which in the source throws; that is modelled by
`none`. -/
def bfsLoop (adj : String → List String) (ids : List String) (visited : List String)
    (cmap : List (String × Nat)) (cid : Nat) (queue : List String) :
    Option (List String × List (String × Nat)) :=
  match queue with
  | [] => some (visited, cmap)
  | q0 :: qs =>
    let curr := (q0 :: qs).getLast (by simp)
    let rest := (q0 :: qs).dropLast
    if hv : curr ∈ visited then
      bfsLoop adj ids visited cmap cid rest
    else
      if hcur : curr ∈ ids then
        bfsLoop adj ids (curr :: visited) (cmap ++ [(curr, cid)]) cid
          (rest ++ (adj curr).filter (fun n => decide (n ∉ curr :: visited)))
      else
        none
termination_by ((ids.toFinset \ visited.toFinset).card, queue.length)
decreasing_by
  · apply Prod.Lex.right
    simp only [curr, rest, List.length_dropLast, List.length_cons]
    omega
  · apply Prod.Lex.left
    have h1 : ids.toFinset \ (curr :: visited).toFinset ⊆ ids.toFinset \ visited.toFinset := by
      rw [List.toFinset_cons]
      exact Finset.sdiff_subset_sdiff (Finset.Subset.refl _) (Finset.subset_insert _ _)
    have h2 : curr ∈ ids.toFinset \ visited.toFinset :=
      Finset.mem_sdiff.mpr ⟨List.mem_toFinset.mpr hcur,
        fun hmem => hv (List.mem_toFinset.mp hmem)⟩
    have h3 : curr ∉ ids.toFinset \ (curr :: visited).toFinset := by
      intro hmem
      rw [List.toFinset_cons] at hmem
      exact (Finset.mem_sdiff.mp hmem).2 (Finset.mem_insert_self _ _)
    exact Finset.card_lt_card ((Finset.ssubset_iff_of_subset h1).mpr ⟨curr, h2, h3⟩)

/-- The outer loop of `getClusters`: start one traversal per not-yet-visited
node in node order, incrementing the cluster id after each. -/
def clusterLoop (adj : String → List String) (ids : List String) (visited : List String)
    (cmap : List (String × Nat)) (cid : Nat) :
    List String → Option (List (String × Nat) × Nat)
  | [] => some (cmap, cid)
  | n :: rest =>
    if n ∈ visited then clusterLoop adj ids visited cmap cid rest
    else
      match bfsLoop adj ids visited cmap cid [n] with
      | none => none
      | some (visited2, cmap2) => clusterLoop adj ids visited2 cmap2 (cid + 1) rest

/-- The result of `getClusters`: the cluster assignment as an association
list in visit order, and the cluster count. -/
structure ClusterResult where
  clusterMap : List (String × Nat)
  numClusters : Nat
deriving DecidableEq, Repr

/-- `getClusters` from `risk-factors.ts`.  `none` models the exception thrown
when a traversal reaches an id with no adjacency entry; for link endpoints
that are node ids the function always succeeds. -/
def getClusters (nodes : List Node) (links : List Link) : Option ClusterResult :=
  let ids := nodes.map Node.id
  match clusterLoop (adjOf links) ids [] [] 0 ids with
  | none => none
  | some (cmap, k) => some { clusterMap := cmap, numClusters := k }

/-- One link joining `a` and `b` in either direction. -/
def linkRel (links : List Link) (a b : String) : Prop :=
  ∃ l ∈ links, (l.source = a ∧ l.target = b) ∨ (l.source = b ∧ l.target = a)

/-- Connectivity by a path of links, ignoring direction. -/
def Connected (links : List Link) : String → String → Prop :=
  Relation.ReflTransGen (linkRel links)

/-- Reachability along adjacency steps avoiding a forbidden set `V`: every
vertex on the path, endpoints included, is outside `V`.  This describes the
set of vertices a traversal can still reach from a queue entry. -/
inductive ReachAvoid (adj : String → List String) (V : String → Prop) : String → String → Prop where
  | refl (a : String) (ha : ¬ V a) : ReachAvoid adj V a a
  | tail {a b c : String} (hab : ReachAvoid adj V a b) (hc : c ∈ adj b) (hcv : ¬ V c) :
      ReachAvoid adj V a c

/-- `checkWalletAge` restated with the age comparison at the integer
millisecond level: dividing by the positive constant 86,400,000 and comparing
with 7 is the same as comparing the millisecond age with 604,800,000. -/
theorem checkWalletAge_eq (now : Int) (m : Metrics) (txs : List Transaction) :
    checkWalletAge now m txs =
      match txs with
      | [] => 0
      | t :: _ =>
        let firstTx := txs.foldl
          (fun mn tx => if tx.timestamp < mn then tx.timestamp else mn) t.timestamp
        if now - firstTx < 604800000 then 20 else 0 := by
  cases txs with
  | nil => rfl
  | cons t ts =>
    show (if ((now - _ : Int) : ℚ) / (1000 * 60 * 60 * 24) < 7 then 20 else 0) = _
    have h : ∀ a : Int, ((a : ℚ) / (1000 * 60 * 60 * 24) < 7 ↔ a < 604800000) := by
      intro a
      rw [div_lt_iff₀ (by norm_num)]
      constructor <;> intro hh
      · exact_mod_cast hh
      · exact_mod_cast hh
    simp only [h]

/-- C1.  For every `now` reference and wallet input, the breakdown of
`aggregateRiskFactors` has exactly the sixteen registered evaluator keys, in
order and without repetition (zero-valued entries included), and the returned
score is the sum of the breakdown values. -/
theorem aggregateRiskFactors_complete_and_total (now : Int) (walletData : WalletData) :
    (aggregateRiskFactors now walletData).breakdown.map Prod.fst = registeredEvaluators ∧
    ((aggregateRiskFactors now walletData).breakdown.map Prod.fst).Nodup ∧
    (aggregateRiskFactors now walletData).score =
      ((aggregateRiskFactors now walletData).breakdown.map Prod.snd).sum := by
  refine ⟨rfl, ?_, rfl⟩
  show registeredEvaluators.Nodup
  decide

/-- C7.  Every evaluator returns its zero contribution on an empty transaction
list (and empty token balance list), and `aggregateRiskFactors` on empty
inputs is total, with an all-zero breakdown and score 0.  The metrics of an
empty wallet report zero transactions. -/
theorem riskFactors_empty_inputs (now : Int) (address gs : String) (uc ad ci : Nat) :
    checkHighFrequency now [] = 0 ∧
    checkMixerUsage [] = 0 ∧
    checkScamContractInteraction [] = 0 ∧
    checkAbnormalGas [] = 0 ∧
    checkReceivedFromBlacklist [] = 0 ∧
    checkSentToBlacklist [] = 0 ∧
    checkFaucetOnly [] = 0 ∧
    checkScamTokens [] = 0 ∧
    checkLargeInflowOutflow [] = 0 ∧
    checkWalletAge now ⟨0, gs, uc, ad, ci⟩ [] = 0 ∧
    checkTotalTransactions ⟨0, gs, uc, ad, ci⟩ = 0 ∧
    checkWashTrading [] = 0 ∧
    checkCircularTransactions [] = 0 ∧
    checkAnomalies [] = 0 ∧
    aggregateRiskFactors now ⟨address, [], [], ⟨0, gs, uc, ad, ci⟩⟩ =
      { score := 0, breakdown := zeroBreakdown } := by
  refine ⟨rfl, rfl, rfl, rfl, rfl, rfl, rfl, rfl, rfl, rfl, rfl, rfl, rfl, rfl, ?_⟩
  show aggregateRiskFactors now ⟨address, [], [], ⟨0, gs, uc, ad, ci⟩⟩ =
      { score := 0, breakdown := zeroBreakdown }
  simp only [aggregateRiskFactors, zeroBreakdown, registeredEvaluators]
  rfl

/-- The count in `pairCounts` never exceeds the number of transactions. -/
theorem pairCount_le_length (transactions : List Transaction) (key : String) :
    pairCount transactions key ≤ transactions.length :=
  List.length_filter_le _ _

/-- `checkWashTrading` cannot fire with 3 or fewer transactions: every pair
count is bounded by the transaction count. -/
theorem checkWashTrading_of_few (txs : List Transaction) (h : txs.length ≤ 3) :
    checkWashTrading txs = 0 := by
  simp only [checkWashTrading]
  rw [if_neg]
  intro hany
  rw [List.any_eq_true] at hany
  obtain ⟨key, _, hf⟩ := hany
  rw [Bool.and_eq_true, decide_eq_true_eq, decide_eq_true_eq] at hf
  have := pairCount_le_length txs (keyCounterparty key ++ ":incoming")
  omega

/-- `checkCircularTransactions` returns 0 when every transaction is incoming:
no group has an outgoing transaction to pair with. -/
theorem checkCircular_of_all_incoming (txs : List Transaction)
    (h : ∀ tx ∈ txs, tx.type = TxType.incoming) :
    checkCircularTransactions txs = 0 := by
  simp only [checkCircularTransactions]
  rw [if_neg]
  intro hany
  rw [List.any_eq_true] at hany
  obtain ⟨c, _, hf⟩ := hany
  rw [List.any_eq_true] at hf
  obtain ⟨inc, _, hg⟩ := hf
  rw [List.any_eq_true] at hg
  obtain ⟨out, hout, _⟩ := hg
  rw [List.mem_filter, decide_eq_true_eq] at hout
  obtain ⟨hout1, hout2⟩ := hout
  rw [List.mem_filter] at hout1
  have := h out hout1.1
  rw [this] at hout2
  exact TxType.noConfusion hout2

/-- `checkCircularTransactions` fires as soon as one incoming and one outgoing
transaction share a truthy counterparty, with timestamps within a day and
amounts within 0.0001. -/
theorem checkCircular_of_pair (txs : List Transaction) (inc out : Transaction)
    (hinc : inc ∈ txs) (hout : out ∈ txs)
    (hcp : inc.counterparty = out.counterparty) (hne : inc.counterparty ≠ "")
    (hti : inc.type = TxType.incoming) (hto : out.type = TxType.outgoing)
    (hts : |inc.timestamp - out.timestamp| < 1000 * 60 * 60 * 24)
    (hamt : |inc.amount - out.amount| < (1 : ℚ) / 10000) :
    checkCircularTransactions txs = 25 := by
  simp only [checkCircularTransactions]
  rw [if_pos]
  rw [List.any_eq_true]
  refine ⟨inc.counterparty, ?_, ?_⟩
  · rw [List.mem_map]
    refine ⟨inc, ?_, rfl⟩
    rw [List.mem_filter, decide_eq_true_eq]
    exact ⟨hinc, hne⟩
  · rw [List.any_eq_true]
    refine ⟨inc, ?_, ?_⟩
    · rw [List.mem_filter, decide_eq_true_eq]
      constructor
      · rw [List.mem_filter, decide_eq_true_eq]
        exact ⟨hinc, rfl⟩
      · exact hti
    · rw [List.any_eq_true]
      refine ⟨out, ?_, ?_⟩
      · rw [List.mem_filter, decide_eq_true_eq]
        constructor
        · rw [List.mem_filter, decide_eq_true_eq]
          exact ⟨hout, hcp.symm⟩
        · exact hto
      · rw [Bool.and_eq_true, decide_eq_true_eq, decide_eq_true_eq]
        exact ⟨hts, hamt⟩

/-- `checkAnomalies` fires when there are at least 5 transactions and one of
them exceeds 10 times the median amount. -/
theorem checkAnomalies_of_large (txs : List Transaction) (h5 : ¬ txs.length < 5)
    (m : ℚ)
    (hm : (sortRats (txs.map (fun tx => tx.amount))).getD
        ((sortRats (txs.map (fun tx => tx.amount))).length / 2) 0 = m)
    (tx : Transaction) (htx : tx ∈ txs) (hgt : tx.amount > m * 10) :
    checkAnomalies txs = 15 := by
  simp only [checkAnomalies]
  rw [if_neg h5, if_pos]
  rw [Bool.or_eq_true]
  left
  rw [List.any_eq_true]
  refine ⟨tx, htx, ?_⟩
  rw [decide_eq_true_eq, hm]
  exact hgt

/-- C8.  `aggregateRiskFactors` is deterministic in its inputs: with the
`now` reference held fixed, two wallet records with the same transactions,
token balances and metrics receive identical results, so evaluating the
evaluator set twice in one run yields two identical breakdowns. -/
theorem aggregateRiskFactors_deterministic (now : Int) (wd1 wd2 : WalletData)
    (htx : wd1.transactions = wd2.transactions)
    (hbal : wd1.tokenBalances = wd2.tokenBalances)
    (hm : wd1.metrics = wd2.metrics) :
    aggregateRiskFactors now wd1 = aggregateRiskFactors now wd2 := by
  cases wd1
  cases wd2
  simp only at htx hbal hm
  subst htx
  subst hbal
  subst hm
  rfl

/-- Witness for C8 at concrete inputs: two wallet records that differ only in
their address receive identical results. -/
theorem aggregateRiskFactors_deterministic_witness :
    (WalletData.mk "0xa" [] [] ⟨0, "0", 0, 0, 0⟩).transactions =
        (WalletData.mk "0xb" [] [] ⟨0, "0", 0, 0, 0⟩).transactions ∧
    aggregateRiskFactors 0 (WalletData.mk "0xa" [] [] ⟨0, "0", 0, 0, 0⟩) =
      aggregateRiskFactors 0 (WalletData.mk "0xb" [] [] ⟨0, "0", 0, 0, 0⟩) :=
  ⟨rfl, aggregateRiskFactors_deterministic 0 _ _ rfl rfl rfl⟩

/-- Unfolding equation of `bfsLoop` on the empty queue. -/
theorem bfsLoop_nil (adj : String → List String) (ids visited : List String)
    (cmap : List (String × Nat)) (cid : Nat) :
    bfsLoop adj ids visited cmap cid [] = some (visited, cmap) := by
  rw [bfsLoop]

/-- Unfolding equation of `bfsLoop` when the popped id was already visited. -/
theorem bfsLoop_cons_visited (adj : String → List String) (ids visited : List String)
    (cmap : List (String × Nat)) (cid : Nat) (q0 : String) (qs : List String)
    (hv : (q0 :: qs).getLast (by simp) ∈ visited) :
    bfsLoop adj ids visited cmap cid (q0 :: qs) =
      bfsLoop adj ids visited cmap cid (q0 :: qs).dropLast := by
  rw [bfsLoop]
  rw [dif_pos hv]

/-- Unfolding equation of `bfsLoop` when the popped id is a fresh node id. -/
theorem bfsLoop_cons_new (adj : String → List String) (ids visited : List String)
    (cmap : List (String × Nat)) (cid : Nat) (q0 : String) (qs : List String)
    (hv : (q0 :: qs).getLast (by simp) ∉ visited)
    (hid : (q0 :: qs).getLast (by simp) ∈ ids) :
    bfsLoop adj ids visited cmap cid (q0 :: qs) =
      bfsLoop adj ids ((q0 :: qs).getLast (by simp) :: visited)
        (cmap ++ [((q0 :: qs).getLast (by simp), cid)]) cid
        ((q0 :: qs).dropLast ++ (adj ((q0 :: qs).getLast (by simp))).filter
          (fun n => decide (n ∉ (q0 :: qs).getLast (by simp) :: visited))) := by
  rw [bfsLoop]
  rw [dif_neg hv, dif_pos hid]

/-- Unfolding equation of `bfsLoop` when the popped id is fresh but not a
node id: the adjacency entry is missing and the source throws. -/
theorem bfsLoop_cons_crash (adj : String → List String) (ids visited : List String)
    (cmap : List (String × Nat)) (cid : Nat) (q0 : String) (qs : List String)
    (hv : (q0 :: qs).getLast (by simp) ∉ visited)
    (hid : (q0 :: qs).getLast (by simp) ∉ ids) :
    bfsLoop adj ids visited cmap cid (q0 :: qs) = none := by
  rw [bfsLoop]
  rw [dif_neg hv, dif_neg hid]

/-- Both endpoints of an avoiding path lie outside the avoided set. -/
theorem ReachAvoid.endpoints {adj : String → List String} {V : String → Prop}
    {a b : String} (h : ReachAvoid adj V a b) : ¬ V a ∧ ¬ V b := by
  induction h with
  | refl ha => exact ⟨ha, ha⟩
  | tail hab hc hcv ih => exact ⟨ih.1, hcv⟩

/-- Avoiding a superset is the stronger condition. -/
theorem ReachAvoid.mono {adj : String → List String} {V W : String → Prop}
    {a b : String} (hVW : ∀ x, V x → W x) (h : ReachAvoid adj W a b) :
    ReachAvoid adj V a b := by
  induction h with
  | refl ha => exact ReachAvoid.refl _ (fun hx => ha (hVW _ hx))
  | tail hab hc hcv ih => exact ReachAvoid.tail ih hc (fun hx => hcv (hVW _ hx))

/-- Transport of an avoiding path along an equivalence of avoided sets. -/
theorem ReachAvoid.congr {adj : String → List String} {V W : String → Prop}
    {a b : String} (hVW : ∀ x, V x ↔ W x) (h : ReachAvoid adj V a b) :
    ReachAvoid adj W a b := by
  induction h with
  | refl ha => exact ReachAvoid.refl _ (fun hx => ha ((hVW _).mpr hx))
  | tail hab hc hcv ih => exact ReachAvoid.tail ih hc (fun hx => hcv ((hVW _).mpr hx))

/-- An avoiding path can be extended at its start by one adjacency step. -/
theorem ReachAvoid.head {adj : String → List String} {V : String → Prop}
    {a b c : String} (ha : ¬ V a) (hb : b ∈ adj a) (h : ReachAvoid adj V b c) :
    ReachAvoid adj V a c := by
  induction h with
  | refl hx => exact ReachAvoid.tail (ReachAvoid.refl a ha) hb hx
  | tail hab hadj hcv ih => exact ReachAvoid.tail ih hadj hcv

/-- Splitting an avoiding path at a distinguished vertex `c`: either the path
avoids `c` entirely, or it ends at `c`, or its final leg leaves `c` through a
neighbour and then avoids `c`. -/
theorem ReachAvoid.split {adj : String → List String} {V : String → Prop}
    {q w : String} (c : String) (h : ReachAvoid adj V q w) :
    ReachAvoid adj (fun x => x = c ∨ V x) q w ∨ w = c ∨
      (∃ x, x ∈ adj c ∧ x ≠ c ∧ ReachAvoid adj (fun x => x = c ∨ V x) x w) := by
  induction h with
  | refl ha =>
    by_cases hac : q = c
    · exact Or.inr (Or.inl hac)
    · exact Or.inl (ReachAvoid.refl q (fun hx => hx.elim hac ha))
  | tail hab hadj hcv ih =>
    rename_i b d
    by_cases hdc : d = c
    · exact Or.inr (Or.inl hdc)
    · rcases ih with h1 | h2 | h3
      · exact Or.inl (ReachAvoid.tail h1 hadj (fun hx => hx.elim hdc hcv))
      · subst h2
        exact Or.inr (Or.inr ⟨d, hadj, hdc, ReachAvoid.refl d (fun hx => hx.elim hdc hcv)⟩)
      · obtain ⟨x, hx1, hx2, hx3⟩ := h3
        exact Or.inr (Or.inr ⟨x, hx1, hx2,
          ReachAvoid.tail hx3 hadj (fun hx => hx.elim hdc hcv)⟩)

/-- An avoiding path is in particular an adjacency path. -/
theorem ReachAvoid.toReflTransGen {adj : String → List String} {V : String → Prop}
    {a b : String} (h : ReachAvoid adj V a b) :
    Relation.ReflTransGen (fun x y => y ∈ adj x) a b := by
  induction h with
  | refl ha => exact Relation.ReflTransGen.refl
  | tail hab hc hcv ih => exact Relation.ReflTransGen.tail ih hc

/-- A set closed under a symmetric adjacency absorbs adjacency paths. -/
theorem reflTransGen_closed {adj : String → List String} {V : String → Prop}
    (hclosed : ∀ x, V x → ∀ y ∈ adj x, V y) {a b : String}
    (hconn : Relation.ReflTransGen (fun x y => y ∈ adj x) a b) (ha : V a) : V b := by
  induction hconn with
  | refl => exact ha
  | tail hab hbc ih => exact hclosed _ ih _ hbc

/-- Over a symmetric adjacency, an adjacency path from a vertex outside a
closed set is automatically an avoiding path: it can never enter the set. -/
theorem reflTransGen_toReachAvoid {adj : String → List String} {V : String → Prop}
    (hclosed : ∀ x, V x → ∀ y ∈ adj x, V y)
    (hsym : ∀ x y, y ∈ adj x → x ∈ adj y)
    {a b : String} (ha : ¬ V a)
    (hconn : Relation.ReflTransGen (fun x y => y ∈ adj x) a b) :
    ReachAvoid adj V a b := by
  induction hconn with
  | refl => exact ReachAvoid.refl a ha
  | tail hab hbc ih =>
    rename_i b' c'
    have hb' : ¬ V b' := (ReachAvoid.endpoints ih).2
    have hc' : ¬ V c' := by
      intro hVc
      exact hb' (hclosed _ hVc _ (hsym _ _ hbc))
    exact ReachAvoid.tail ih hbc hc'

/-- Full characterisation of one `bfsLoop` run.  Starting from a queue of
node ids and a visited set backed by a duplicate-free cluster map, the loop
returns without crashing; the final visited set adds exactly the vertices
reachable from the queue while avoiding the initial visited set, the new map
entries carry the current cluster id, and the map keys continue to mirror the
visited set. -/
theorem bfsLoop_spec (adj : String → List String) (ids : List String)
    (hadj : ∀ v w, w ∈ adj v → w ∈ ids) :
    ∀ (visited : List String) (cmap : List (String × Nat)) (cid : Nat) (queue : List String),
    (∀ v ∈ queue, v ∈ ids) → (∀ v ∈ visited, v ∈ ids) →
    ((cmap.map Prod.fst).Nodup) → (∀ w, w ∈ cmap.map Prod.fst ↔ w ∈ visited) →
    ∃ V2 E,
      bfsLoop adj ids visited cmap cid queue = some (V2, cmap ++ E) ∧
      (∀ w, w ∈ V2 ↔ w ∈ visited ∨
        ∃ q ∈ queue, ReachAvoid adj (fun x => x ∈ visited) q w) ∧
      (∀ p ∈ E, p.2 = cid) ∧
      (((cmap ++ E).map Prod.fst).Nodup) ∧
      (∀ w, w ∈ (cmap ++ E).map Prod.fst ↔ w ∈ V2) ∧
      (∀ v ∈ V2, v ∈ ids) := by
  intro visited cmap cid queue
  refine bfsLoop.induct adj ids
    (motive := fun visited cmap cid queue =>
      (∀ v ∈ queue, v ∈ ids) → (∀ v ∈ visited, v ∈ ids) →
      ((cmap.map Prod.fst).Nodup) → (∀ w, w ∈ cmap.map Prod.fst ↔ w ∈ visited) →
      ∃ V2 E,
        bfsLoop adj ids visited cmap cid queue = some (V2, cmap ++ E) ∧
        (∀ w, w ∈ V2 ↔ w ∈ visited ∨
          ∃ q ∈ queue, ReachAvoid adj (fun x => x ∈ visited) q w) ∧
        (∀ p ∈ E, p.2 = cid) ∧
        (((cmap ++ E).map Prod.fst).Nodup) ∧
        (∀ w, w ∈ (cmap ++ E).map Prod.fst ↔ w ∈ V2) ∧
        (∀ v ∈ V2, v ∈ ids))
    ?_ ?_ ?_ ?_ visited cmap cid queue
  · intro visited cmap cid
    intro hq hvis hnodup hkv
    refine ⟨visited, [], ?_, ?_, ?_, ?_, ?_, hvis⟩
    · rw [List.append_nil]
      exact bfsLoop_nil adj ids visited cmap cid
    · intro w
      simp
    · intro p hp
      simp at hp
    · rw [List.append_nil]
      exact hnodup
    · rw [List.append_nil]
      exact hkv
  · intro visited cmap cid q0 qs curr rest hv ih
    intro hq hvis hnodup hkv
    have hsplit : rest ++ [curr] = q0 :: qs := List.dropLast_append_getLast (by simp)
    have hqrest : ∀ v ∈ rest, v ∈ ids := fun v hv' =>
      hq v ((List.dropLast_sublist _).subset hv')
    obtain ⟨V2, E, heq, hiff, hval, hnodup2, hkv2, hids2⟩ := ih hqrest hvis hnodup hkv
    refine ⟨V2, E, ?_, ?_, hval, hnodup2, hkv2, hids2⟩
    · exact (bfsLoop_cons_visited adj ids visited cmap cid q0 qs hv).trans heq
    · intro w
      rw [hiff w]
      constructor
      · rintro (hmem | ⟨q, hqm, hra⟩)
        · exact Or.inl hmem
        · exact Or.inr ⟨q, (List.dropLast_sublist _).subset hqm, hra⟩
      · rintro (hmem | ⟨q, hqm, hra⟩)
        · exact Or.inl hmem
        · rw [← hsplit] at hqm
          rcases List.mem_append.mp hqm with hqr | hqc
          · exact Or.inr ⟨q, hqr, hra⟩
          · rw [List.mem_singleton] at hqc
            subst hqc
            exact absurd hv (hra.endpoints).1
  · intro visited cmap cid q0 qs curr rest hv hcur ih
    intro hq hvis hnodup hkv
    have hsplit : rest ++ [curr] = q0 :: qs := List.dropLast_append_getLast (by simp)
    have hcurq : curr ∈ q0 :: qs := List.getLast_mem (by simp)
    have hq2 : ∀ v ∈ rest ++ (adj curr).filter (fun n => decide (n ∉ curr :: visited)),
        v ∈ ids := by
      intro v hvm
      rcases List.mem_append.mp hvm with hvr | hvn
      · exact hq v ((List.dropLast_sublist _).subset hvr)
      · exact hadj curr v (List.mem_filter.mp hvn).1
    have hvis2 : ∀ v ∈ curr :: visited, v ∈ ids := by
      intro v hvm
      rcases List.mem_cons.mp hvm with rfl | hvm2
      · exact hcur
      · exact hvis v hvm2
    have hcurkey : curr ∉ cmap.map Prod.fst := fun hmem => hv ((hkv curr).mp hmem)
    have hnodup2 : (((cmap ++ [(curr, cid)]).map Prod.fst).Nodup) := by
      rw [List.map_append]
      rw [List.nodup_append]
      refine ⟨hnodup, by simp, ?_⟩
      intro a ha hb
      simp at hb
      subst hb
      exact hcurkey ha
    have hkv2 : ∀ w, w ∈ (cmap ++ [(curr, cid)]).map Prod.fst ↔ w ∈ curr :: visited := by
      intro w
      rw [List.map_append, List.mem_append, List.mem_cons]
      simp only [List.map_cons, List.map_nil, List.mem_singleton]
      rw [hkv w]
      tauto
    obtain ⟨V2, E1, heq, hiff, hval, hnodup3, hkv3, hids3⟩ := ih hq2 hvis2 hnodup2 hkv2
    have hassoc : (cmap ++ [(curr, cid)]) ++ E1 = cmap ++ ((curr, cid) :: E1) := by
      rw [List.append_assoc]
      rfl
    refine ⟨V2, (curr, cid) :: E1, ?_, ?_, ?_, ?_, ?_, hids3⟩
    · have heq2 : bfsLoop adj ids (curr :: visited) (cmap ++ [(curr, cid)]) cid
          (rest ++ (adj curr).filter (fun n => decide (n ∉ curr :: visited))) =
          some (V2, cmap ++ ((curr, cid) :: E1)) := by
        rw [heq, hassoc]
      exact (bfsLoop_cons_new adj ids visited cmap cid q0 qs hv hcur).trans heq2
    · intro w
      rw [hiff w]
      have hVsub : ∀ x, x ∈ visited → x ∈ curr :: visited :=
        fun x hx => List.mem_cons_of_mem _ hx
      have hcons : ∀ x, (x = curr ∨ x ∈ visited) ↔ x ∈ curr :: visited :=
        fun x => (List.mem_cons).symm
      constructor
      · rintro (hmem | ⟨q, hqm, hra⟩)
        · rcases List.mem_cons.mp hmem with heqw | hmem2
          · refine Or.inr ⟨curr, hcurq, ?_⟩
            rw [heqw]
            exact ReachAvoid.refl curr hv
          · exact Or.inl hmem2
        · rcases List.mem_append.mp hqm with hqr | hqn
          · exact Or.inr ⟨q, (List.dropLast_sublist _).subset hqr, hra.mono hVsub⟩
          · have hq1 : q ∈ adj curr := (List.mem_filter.mp hqn).1
            exact Or.inr ⟨curr, hcurq, ReachAvoid.head hv hq1 (hra.mono hVsub)⟩
      · rintro (hmem | ⟨q, hqm, hra⟩)
        · exact Or.inl (List.mem_cons_of_mem _ hmem)
        · rcases hra.split curr with h1 | h2 | h3
          · have hra2 : ReachAvoid adj (fun x => x ∈ curr :: visited) q w :=
              h1.congr hcons
            have hqne : q ≠ curr := by
              intro hqq
              exact (hra2.endpoints).1 (hqq ▸ List.mem_cons_self _ _)
            rw [← hsplit] at hqm
            rcases List.mem_append.mp hqm with hqr | hqc
            · exact Or.inr ⟨q, List.mem_append_left _ hqr, hra2⟩
            · rw [List.mem_singleton] at hqc
              exact absurd hqc hqne
          · subst h2
            exact Or.inl (List.mem_cons_self _ _)
          · obtain ⟨x, hx1, hx2, hx3⟩ := h3
            have hx4 : ReachAvoid adj (fun y => y ∈ curr :: visited) x w :=
              hx3.congr hcons
            have hxnv : x ∉ curr :: visited := (hx4.endpoints).1
            exact Or.inr ⟨x, List.mem_append_right _
              (List.mem_filter.mpr ⟨hx1, decide_eq_true hxnv⟩), hx4⟩
    · intro p hp
      rcases List.mem_cons.mp hp with rfl | hp2
      · rfl
      · exact hval p hp2
    · rw [← hassoc]
      exact hnodup3
    · rw [← hassoc]
      exact hkv3
  · intro visited cmap cid q0 qs curr hv hcur
    intro hq hvis hnodup hkv
    exact absurd (hq _ (List.getLast_mem (by simp))) hcur

/-- A list whose members are pairwise related in every combination is
`Pairwise`. -/
theorem pairwise_of_all {α : Type} {R : α → α → Prop} :
    ∀ (l : List α), (∀ a ∈ l, ∀ b ∈ l, R a b) → l.Pairwise R
  | [], _ => List.Pairwise.nil
  | x :: xs, h => List.Pairwise.cons
      (fun b hb => h x (List.mem_cons_self _ _) b (List.mem_cons_of_mem _ hb))
      (pairwise_of_all xs (fun a ha b hb =>
        h a (List.mem_cons_of_mem _ ha) b (List.mem_cons_of_mem _ hb)))

/-- Full characterisation of the outer loop of `getClusters`.  All invariants
listed are preserved from the initial state to the final one: the visited set
grows to cover the processed nodes, cluster-map keys mirror the visited set
without duplicates, cluster values fill the range below the running counter
in visit order, two mapped ids share a value exactly when they are connected,
and the counter counts one representative per component seen so far. -/
theorem clusterLoop_spec (adj : String → List String) (ids : List String)
    (hadj : ∀ v w, w ∈ adj v → w ∈ ids)
    (hsym : ∀ v w, w ∈ adj v → v ∈ adj w) :
    ∀ (ns visited : List String) (cmap : List (String × Nat)) (cid : Nat),
    (∀ v ∈ ns, v ∈ ids) →
    (∀ v ∈ visited, v ∈ ids) →
    (∀ v, v ∈ visited → ∀ w ∈ adj v, w ∈ visited) →
    ((cmap.map Prod.fst).Nodup) →
    (∀ w, w ∈ cmap.map Prod.fst ↔ w ∈ visited) →
    (∀ p ∈ cmap, p.2 < cid) →
    (∀ c, c < cid → ∃ p ∈ cmap, p.2 = c) →
    (cmap.Pairwise (fun p q => p.2 ≤ q.2)) →
    (∀ a ca b cb, (a, ca) ∈ cmap → (b, cb) ∈ cmap →
      (ca = cb ↔ Relation.ReflTransGen (fun x y => y ∈ adj x) a b)) →
    (∃ reps : List String, reps.length = cid ∧ (∀ r ∈ reps, r ∈ visited) ∧
      reps.Pairwise (fun a b => ¬ Relation.ReflTransGen (fun x y => y ∈ adj x) a b) ∧
      (∀ v ∈ visited, ∃ r ∈ reps, Relation.ReflTransGen (fun x y => y ∈ adj x) r v)) →
    ∃ (cmap2 : List (String × Nat)) (k : Nat) (visited2 : List String),
      clusterLoop adj ids visited cmap cid ns = some (cmap2, k) ∧
      (∀ v ∈ visited, v ∈ visited2) ∧
      (∀ v ∈ ns, v ∈ visited2) ∧
      (∀ v ∈ visited2, v ∈ ids) ∧
      (∀ v, v ∈ visited2 → ∀ w ∈ adj v, w ∈ visited2) ∧
      ((cmap2.map Prod.fst).Nodup) ∧
      (∀ w, w ∈ cmap2.map Prod.fst ↔ w ∈ visited2) ∧
      (∀ p ∈ cmap2, p.2 < k) ∧
      (∀ c, c < k → ∃ p ∈ cmap2, p.2 = c) ∧
      (cmap2.Pairwise (fun p q => p.2 ≤ q.2)) ∧
      (∀ a ca b cb, (a, ca) ∈ cmap2 → (b, cb) ∈ cmap2 →
        (ca = cb ↔ Relation.ReflTransGen (fun x y => y ∈ adj x) a b)) ∧
      (∃ reps : List String, reps.length = k ∧ (∀ r ∈ reps, r ∈ visited2) ∧
        reps.Pairwise (fun a b => ¬ Relation.ReflTransGen (fun x y => y ∈ adj x) a b) ∧
        (∀ v ∈ visited2, ∃ r ∈ reps, Relation.ReflTransGen (fun x y => y ∈ adj x) r v)) := by
  intro ns
  induction ns with
  | nil =>
    intro visited cmap cid hns hvis hcl hnd hkv hlt hsurj hmono hiff hreps
    exact ⟨cmap, cid, visited, rfl, fun v h => h,
      fun v hv => absurd hv (List.not_mem_nil v), hvis, hcl, hnd, hkv,
      hlt, hsurj, hmono, hiff, hreps⟩
  | cons n rest ih =>
    intro visited cmap cid hns hvis hcl hnd hkv hlt hsurj hmono hiff hreps
    have hrest_ids : ∀ v ∈ rest, v ∈ ids := fun v hv => hns v (List.mem_cons_of_mem _ hv)
    by_cases hn : n ∈ visited
    · obtain ⟨cmap2, k, visited2, heq, hsub, hcov, h3, h4, h5, h6, h7, h8, h9, h10, h11⟩ :=
        ih visited cmap cid hrest_ids hvis hcl hnd hkv hlt hsurj hmono hiff hreps
      refine ⟨cmap2, k, visited2, ?_, hsub, ?_, h3, h4, h5, h6, h7, h8, h9, h10, h11⟩
      · show clusterLoop adj ids visited cmap cid (n :: rest) = some (cmap2, k)
        simp only [clusterLoop]
        rw [if_pos hn]
        exact heq
      · intro v hv
        rcases List.mem_cons.mp hv with rfl | hv2
        · exact hsub v hn
        · exact hcov v hv2
    · have hnid : n ∈ ids := hns n (List.mem_cons_self _ _)
      have hsymm' : Symmetric (fun x y => y ∈ adj x) := fun x y h => hsym x y h
      obtain ⟨V2, E, heq, hiffV, hval, hnd2, hkv2, hids2⟩ :=
        bfsLoop_spec adj ids hadj visited cmap cid [n]
          (by intro v hv; rw [List.mem_singleton] at hv; subst hv; exact hnid)
          hvis hnd hkv
      have hRA_iff : ∀ w, ReachAvoid adj (fun x => x ∈ visited) n w ↔
          Relation.ReflTransGen (fun x y => y ∈ adj x) n w := by
        intro w
        constructor
        · exact ReachAvoid.toReflTransGen
        · exact reflTransGen_toReachAvoid hcl hsym hn
      have hV2 : ∀ w, w ∈ V2 ↔
          (w ∈ visited ∨ Relation.ReflTransGen (fun x y => y ∈ adj x) n w) := by
        intro w
        rw [hiffV w]
        constructor
        · rintro (h | ⟨q, hq, hra⟩)
          · exact Or.inl h
          · rw [List.mem_singleton] at hq
            subst hq
            exact Or.inr ((hRA_iff w).mp hra)
        · rintro (h | hconn)
          · exact Or.inl h
          · exact Or.inr ⟨n, List.mem_singleton.mpr rfl, (hRA_iff w).mpr hconn⟩
      have hconn_notvis : ∀ w, Relation.ReflTransGen (fun x y => y ∈ adj x) n w →
          w ∉ visited := fun w hconn => (((hRA_iff w).mpr hconn).endpoints).2
      have hsubV : ∀ v ∈ visited, v ∈ V2 := fun v h => (hV2 v).mpr (Or.inl h)
      have hnV2 : n ∈ V2 := (hV2 n).mpr (Or.inr Relation.ReflTransGen.refl)
      have hdisj : ∀ a ∈ cmap.map Prod.fst, a ∉ E.map Prod.fst := by
        have h := hnd2
        rw [List.map_append, List.nodup_append] at h
        exact h.2.2
      have hcl2 : ∀ v, v ∈ V2 → ∀ w ∈ adj v, w ∈ V2 := by
        intro v hvV2 w hw
        rcases (hV2 v).mp hvV2 with hvv | hconn
        · exact (hV2 w).mpr (Or.inl (hcl v hvv w hw))
        · exact (hV2 w).mpr (Or.inr (Relation.ReflTransGen.tail hconn hw))
      have hlt2 : ∀ p ∈ cmap ++ E, p.2 < cid + 1 := by
        intro p hp
        rcases List.mem_append.mp hp with hpc | hpe
        · exact Nat.lt_succ_of_lt (hlt p hpc)
        · rw [hval p hpe]
          exact Nat.lt_succ_self _
      have hsurj2 : ∀ c, c < cid + 1 → ∃ p ∈ cmap ++ E, p.2 = c := by
        intro c hc
        rcases Nat.lt_succ_iff_lt_or_eq.mp hc with hlt' | rfl
        · obtain ⟨p, hp, hpc⟩ := hsurj c hlt'
          exact ⟨p, List.mem_append_left _ hp, hpc⟩
        · have hnk : n ∈ (cmap ++ E).map Prod.fst := (hkv2 n).mpr hnV2
          have hnc : n ∉ cmap.map Prod.fst := fun h => hn ((hkv n).mp h)
          rw [List.map_append, List.mem_append] at hnk
          rcases hnk with h | h
          · exact absurd h hnc
          · obtain ⟨p, hp, hpn⟩ := List.mem_map.mp h
            exact ⟨p, List.mem_append_right _ hp, hval p hp⟩
      have hmono2 : (cmap ++ E).Pairwise (fun p q => p.2 ≤ q.2) := by
        rw [List.pairwise_append]
        refine ⟨hmono, pairwise_of_all E ?_, ?_⟩
        · intro a ha b hb
          rw [hval a ha, hval b hb]
        · intro a ha b hb
          rw [hval b hb]
          exact Nat.le_of_lt (hlt a ha)
      have hkeyE_conn : ∀ b cb, (b, cb) ∈ E →
          Relation.ReflTransGen (fun x y => y ∈ adj x) n b ∧ b ∉ visited := by
        intro b cb hbE
        have hbk : b ∈ E.map Prod.fst := List.mem_map.mpr ⟨(b, cb), hbE, rfl⟩
        have hbnv : b ∉ visited := by
          intro hbv
          exact hdisj b ((hkv b).mpr hbv) hbk
        have hbV2 : b ∈ V2 := by
          apply (hkv2 b).mp
          rw [List.map_append, List.mem_append]
          exact Or.inr hbk
        rcases (hV2 b).mp hbV2 with h | h
        · exact absurd h hbnv
        · exact ⟨h, hbnv⟩
      have hiff2 : ∀ a ca b cb, (a, ca) ∈ cmap ++ E → (b, cb) ∈ cmap ++ E →
          (ca = cb ↔ Relation.ReflTransGen (fun x y => y ∈ adj x) a b) := by
        intro a ca b cb ha hb
        rcases List.mem_append.mp ha with haC | haE <;>
          rcases List.mem_append.mp hb with hbC | hbE
        · exact hiff a ca b cb haC hbC
        · obtain ⟨hconnb, hbnv⟩ := hkeyE_conn b cb hbE
          have hav : a ∈ visited := (hkv a).mp (List.mem_map.mpr ⟨(a, ca), haC, rfl⟩)
          constructor
          · intro hcc
            exfalso
            have hcb : cb = cid := hval (b, cb) hbE
            have hca : ca < cid := hlt (a, ca) haC
            omega
          · intro hconn
            exfalso
            exact hbnv (reflTransGen_closed hcl hconn hav)
        · obtain ⟨hconna, hanv⟩ := hkeyE_conn a ca haE
          have hbv : b ∈ visited := (hkv b).mp (List.mem_map.mpr ⟨(b, cb), hbC, rfl⟩)
          constructor
          · intro hcc
            exfalso
            have hca : ca = cid := hval (a, ca) haE
            have hcb : cb < cid := hlt (b, cb) hbC
            omega
          · intro hconn
            exfalso
            exact hanv (reflTransGen_closed hcl
              ((Relation.ReflTransGen.symmetric hsymm') hconn) hbv)
        · obtain ⟨hconna, _⟩ := hkeyE_conn a ca haE
          obtain ⟨hconnb, _⟩ := hkeyE_conn b cb hbE
          constructor
          · intro _
            exact Relation.ReflTransGen.trans
              ((Relation.ReflTransGen.symmetric hsymm') hconna) hconnb
          · intro _
            have hca : ca = cid := hval (a, ca) haE
            have hcb : cb = cid := hval (b, cb) hbE
            omega
      have hreps2 : ∃ reps : List String, reps.length = cid + 1 ∧
          (∀ r ∈ reps, r ∈ V2) ∧
          reps.Pairwise (fun a b => ¬ Relation.ReflTransGen (fun x y => y ∈ adj x) a b) ∧
          (∀ v ∈ V2, ∃ r ∈ reps, Relation.ReflTransGen (fun x y => y ∈ adj x) r v) := by
        obtain ⟨reps, hlen, hrv, hrpw, hrcov⟩ := hreps
        refine ⟨reps ++ [n], ?_, ?_, ?_, ?_⟩
        · rw [List.length_append, hlen]
          rfl
        · intro r hr
          rcases List.mem_append.mp hr with h | h
          · exact hsubV r (hrv r h)
          · rw [List.mem_singleton] at h
            subst h
            exact hnV2
        · rw [List.pairwise_append]
          refine ⟨hrpw, by simp, ?_⟩
          intro a ha b hb
          rw [List.mem_singleton] at hb
          subst hb
          intro hconn
          exact hn (reflTransGen_closed hcl hconn (hrv a ha))
        · intro v hv
          rcases (hV2 v).mp hv with h | h
          · obtain ⟨r, hr, hrc⟩ := hrcov v h
            exact ⟨r, List.mem_append_left _ hr, hrc⟩
          · exact ⟨n, List.mem_append_right _ (List.mem_singleton.mpr rfl), h⟩
      obtain ⟨cmap2, k, visited2, heqrest, hsub2, hcov2, hvis3, hcl3, hnd3, hkv3,
          hlt3, hsurj3, hmono3, hiff3, hreps3⟩ :=
        ih V2 (cmap ++ E) (cid + 1) hrest_ids hids2 hcl2 hnd2 hkv2 hlt2 hsurj2
          hmono2 hiff2 hreps2
      refine ⟨cmap2, k, visited2, ?_, ?_, ?_, hvis3, hcl3, hnd3, hkv3, hlt3,
        hsurj3, hmono3, hiff3, hreps3⟩
      · show clusterLoop adj ids visited cmap cid (n :: rest) = some (cmap2, k)
        simp only [clusterLoop]
        rw [if_neg hn, heq]
        exact heqrest
      · intro v hv
        exact hsub2 v (hsubV v hv)
      · intro v hv
        rcases List.mem_cons.mp hv with rfl | hv2
        · exact hsub2 v hnV2
        · exact hcov2 v hv2

/-- Membership in the dedup accumulator. -/
theorem mem_setDedupAux {α : Type} [DecidableEq α] :
    ∀ (l seen : List α) (a : α), a ∈ setDedupAux seen l ↔ (a ∈ l ∧ a ∉ seen) := by
  intro l
  induction l with
  | nil =>
    intro seen a
    simp [setDedupAux]
  | cons x xs ih =>
    intro seen a
    by_cases hx : x ∈ seen
    · rw [setDedupAux, if_pos hx, ih]
      constructor
      · rintro ⟨h1, h2⟩
        exact ⟨List.mem_cons_of_mem _ h1, h2⟩
      · rintro ⟨h1, h2⟩
        rcases List.mem_cons.mp h1 with rfl | h1'
        · exact absurd hx h2
        · exact ⟨h1', h2⟩
    · rw [setDedupAux, if_neg hx]
      rw [List.mem_cons, ih]
      constructor
      · rintro (rfl | ⟨h1, h2⟩)
        · exact ⟨List.mem_cons_self _ _, hx⟩
        · refine ⟨List.mem_cons_of_mem _ h1, fun hs => h2 (List.mem_cons_of_mem _ hs)⟩
      · rintro ⟨h1, h2⟩
        by_cases hax : a = x
        · exact Or.inl hax
        · rcases List.mem_cons.mp h1 with rfl | h1'
          · exact absurd rfl hax
          · refine Or.inr ⟨h1', fun hs => ?_⟩
            rcases List.mem_cons.mp hs with rfl | hs'
            · exact hax rfl
            · exact h2 hs'

/-- `[...new Set(l)]` has the same members as `l`. -/
theorem mem_setDedup {α : Type} [DecidableEq α] (l : List α) (a : α) :
    a ∈ setDedup l ↔ a ∈ l := by
  rw [setDedup, mem_setDedupAux]
  simp

/-- The dedup accumulator never repeats an element. -/
theorem setDedupAux_nodup {α : Type} [DecidableEq α] :
    ∀ (l seen : List α), (setDedupAux seen l).Nodup := by
  intro l
  induction l with
  | nil =>
    intro seen
    simp [setDedupAux]
  | cons x xs ih =>
    intro seen
    by_cases hx : x ∈ seen
    · rw [setDedupAux, if_pos hx]
      exact ih seen
    · rw [setDedupAux, if_neg hx]
      refine List.Nodup.cons ?_ (ih (x :: seen))
      intro hmem
      exact ((mem_setDedupAux xs (x :: seen) x).mp hmem).2 (List.mem_cons_self _ _)

/-- `[...new Set(l)]` is duplicate free. -/
theorem setDedup_nodup {α : Type} [DecidableEq α] (l : List α) :
    (setDedup l).Nodup := setDedupAux_nodup l []

/-- The adjacency sets built by `getClusters` realise exactly the undirected
link relation. -/
theorem mem_adjOf (links : List Link) (v w : String) :
    w ∈ adjOf links v ↔ linkRel links v w := by
  rw [adjOf, mem_setDedup, List.mem_append]
  constructor
  · rintro (h | h)
    · obtain ⟨l, hl, hlw⟩ := List.mem_map.mp h
      obtain ⟨hl1, hl2⟩ := List.mem_filter.mp hl
      exact ⟨l, hl1, Or.inl ⟨of_decide_eq_true hl2, hlw⟩⟩
    · obtain ⟨l, hl, hlw⟩ := List.mem_map.mp h
      obtain ⟨hl1, hl2⟩ := List.mem_filter.mp hl
      exact ⟨l, hl1, Or.inr ⟨hlw, of_decide_eq_true hl2⟩⟩
  · rintro ⟨l, hl, ⟨hs, ht⟩ | ⟨hs, ht⟩⟩
    · exact Or.inl (List.mem_map.mpr ⟨l, List.mem_filter.mpr ⟨hl, decide_eq_true hs⟩, ht⟩)
    · exact Or.inr (List.mem_map.mpr ⟨l, List.mem_filter.mpr ⟨hl, decide_eq_true ht⟩, hs⟩)

/-- The link relation is symmetric. -/
theorem linkRel_symm {links : List Link} {a b : String} (h : linkRel links a b) :
    linkRel links b a := by
  obtain ⟨l, hl, h1 | h2⟩ := h
  · exact ⟨l, hl, Or.inr ⟨h1.1, h1.2⟩⟩
  · exact ⟨l, hl, Or.inl ⟨h2.1, h2.2⟩⟩

/-- Paths over the built adjacency are exactly link connectivity. -/
theorem adjPath_iff_connected (links : List Link) (a b : String) :
    Relation.ReflTransGen (fun x y => y ∈ adjOf links x) a b ↔ Connected links a b := by
  constructor
  · exact Relation.ReflTransGen.mono (fun x y h => (mem_adjOf links x y).mp h)
  · exact Relation.ReflTransGen.mono (fun x y h => (mem_adjOf links x y).mpr h)

/-- A connected pair is either equal or the start vertex has an incident
link. -/
theorem connected_touches {links : List Link} {v w : String}
    (h : Connected links v w) :
    v = w ∨ ∃ l ∈ links, l.source = v ∨ l.target = v := by
  rcases Relation.ReflTransGen.cases_head h with h1 | ⟨c, hvc, _⟩
  · exact Or.inl h1
  · obtain ⟨l, hl, ⟨hs, _⟩ | ⟨_, ht⟩⟩ := hvc
    · exact Or.inr ⟨l, hl, Or.inl hs⟩
    · exact Or.inr ⟨l, hl, Or.inr ht⟩

/-- Duplicate-free keys determine values uniquely. -/
theorem keys_nodup_unique {l : List (String × Nat)} (h : (l.map Prod.fst).Nodup) :
    ∀ {a : String} {c1 c2 : Nat}, (a, c1) ∈ l → (a, c2) ∈ l → c1 = c2 := by
  induction l with
  | nil =>
    intro a c1 c2 h1
    simp at h1
  | cons p t ih =>
    intro a c1 c2 h1 h2
    rw [List.map_cons, List.nodup_cons] at h
    obtain ⟨hnotin, hnd⟩ := h
    rcases List.mem_cons.mp h1 with h1e | h1m <;> rcases List.mem_cons.mp h2 with h2e | h2m
    · rw [← h1e] at h2e
      exact ((Prod.mk.injEq _ _ _ _).mp h2e.symm).2
    · exfalso
      apply hnotin
      rw [← h1e]
      exact List.mem_map.mpr ⟨(a, c2), h2m, rfl⟩
    · exfalso
      apply hnotin
      rw [← h2e]
      exact List.mem_map.mpr ⟨(a, c1), h1m, rfl⟩
    · exact ih hnd h1m h2m

/-- Master specification of `getClusters` under the precondition that all
link endpoints are node ids: the call succeeds, each node id holds exactly
one cluster-map entry, cluster values fill `0 .. numClusters - 1` in first
visit order, equality of values captures link connectivity, and
`numClusters` counts one representative per connected component. -/
theorem getClusters_spec (nodes : List Node) (links : List Link)
    (hl : ∀ l ∈ links, l.source ∈ nodes.map Node.id ∧ l.target ∈ nodes.map Node.id) :
    ∃ res : ClusterResult,
      getClusters nodes links = some res ∧
      ((res.clusterMap.map Prod.fst).Nodup) ∧
      (∀ w, w ∈ res.clusterMap.map Prod.fst ↔ w ∈ nodes.map Node.id) ∧
      (∀ p ∈ res.clusterMap, p.2 < res.numClusters) ∧
      (∀ c, c < res.numClusters → ∃ p ∈ res.clusterMap, p.2 = c) ∧
      (res.clusterMap.Pairwise (fun p q => p.2 ≤ q.2)) ∧
      (∀ a ca b cb, (a, ca) ∈ res.clusterMap → (b, cb) ∈ res.clusterMap →
        (ca = cb ↔ Connected links a b)) ∧
      (∃ reps : List String, reps.length = res.numClusters ∧
        (∀ r ∈ reps, r ∈ nodes.map Node.id) ∧
        reps.Pairwise (fun a b => ¬ Connected links a b) ∧
        (∀ v ∈ nodes.map Node.id, ∃ r ∈ reps, Connected links r v)) := by
  have hadj : ∀ v w, w ∈ adjOf links v → w ∈ nodes.map Node.id := by
    intro v w hw
    rcases (mem_adjOf links v w).mp hw with ⟨l, hlm, ⟨_, ht⟩ | ⟨hs, _⟩⟩
    · exact ht ▸ (hl l hlm).2
    · exact hs ▸ (hl l hlm).1
  have hsym : ∀ v w, w ∈ adjOf links v → v ∈ adjOf links w := by
    intro v w hw
    exact (mem_adjOf links w v).mpr (linkRel_symm ((mem_adjOf links v w).mp hw))
  obtain ⟨cmap2, k, visited2, heq, _, hcov, hvis2, _, hnd, hkv, hlt, hsurj,
      hmono, hiff, hreps⟩ :=
    clusterLoop_spec (adjOf links) (nodes.map Node.id) hadj hsym
      (nodes.map Node.id) [] [] 0
      (fun v h => h)
      (fun v hv => absurd hv (List.not_mem_nil v))
      (fun v hv => absurd hv (List.not_mem_nil v))
      (by simp)
      (by intro w; simp)
      (fun p hp => absurd hp (List.not_mem_nil p))
      (fun c hc => absurd hc (Nat.not_lt_zero c))
      List.Pairwise.nil
      (fun a ca b cb ha => absurd ha (List.not_mem_nil (a, ca)))
      ⟨[], rfl, fun r hr => absurd hr (List.not_mem_nil r), List.Pairwise.nil,
        fun v hv => absurd hv (List.not_mem_nil v)⟩
  refine ⟨{ clusterMap := cmap2, numClusters := k }, ?_, hnd, ?_, hlt, hsurj, hmono, ?_, ?_⟩
  · simp only [getClusters]
    rw [heq]
  · intro w
    rw [hkv w]
    exact ⟨fun h => hvis2 w h, fun h => hcov w h⟩
  · intro a ca b cb ha hb
    rw [hiff a ca b cb ha hb]
    exact adjPath_iff_connected links a b
  · obtain ⟨reps, hlen, hrv, hrpw, hrcov⟩ := hreps
    refine ⟨reps, hlen, fun r hr => hvis2 r (hrv r hr), ?_, ?_⟩
    · exact hrpw.imp (fun h hc => h ((adjPath_iff_connected links _ _).mpr hc))
    · intro v hv
      obtain ⟨r, hr, hrc⟩ := hrcov v (hcov v hv)
      exact ⟨r, hr, (adjPath_iff_connected links r v).mp hrc⟩

/-- C2.  For node lists with distinct ids and links whose endpoints are node
ids, `getClusters` succeeds and assigns each node id a cluster id such that
two ids share a cluster exactly when a path of links (ignoring direction)
joins them; ids with no joining path get different clusters, and the two
endpoints of any link, regardless of its value, share a cluster. -/
theorem getClusters_connected_iff (nodes : List Node) (links : List Link)
    (_hnd : (nodes.map Node.id).Nodup)
    (hl : ∀ l ∈ links, l.source ∈ nodes.map Node.id ∧ l.target ∈ nodes.map Node.id) :
    ∃ res : ClusterResult,
      getClusters nodes links = some res ∧
      (∀ v ∈ nodes.map Node.id, ∃ c, (v, c) ∈ res.clusterMap) ∧
      (∀ a ca b cb, (a, ca) ∈ res.clusterMap → (b, cb) ∈ res.clusterMap →
        (ca = cb ↔ Connected links a b)) ∧
      (∀ a ca b cb, (a, ca) ∈ res.clusterMap → (b, cb) ∈ res.clusterMap →
        ¬ Connected links a b → ca ≠ cb) ∧
      (∀ l ∈ links, ∀ ca cb, (l.source, ca) ∈ res.clusterMap →
        (l.target, cb) ∈ res.clusterMap → ca = cb) := by
  obtain ⟨res, heq, hndk, hkeys, hlt, hsurj, hmono, hiff, hreps⟩ :=
    getClusters_spec nodes links hl
  refine ⟨res, heq, ?_, hiff, ?_, ?_⟩
  · intro v hv
    obtain ⟨⟨a, c⟩, hp, hfst⟩ := List.mem_map.mp ((hkeys v).mpr hv)
    exact ⟨c, by rwa [show a = v from hfst] at hp⟩
  · intro a ca b cb ha hb hnc hcc
    exact hnc ((hiff a ca b cb ha hb).mp hcc)
  · intro l hlm ca cb ha hb
    exact (hiff _ ca _ cb ha hb).mpr
      (Relation.ReflTransGen.single ⟨l, hlm, Or.inl ⟨rfl, rfl⟩⟩)

/-- Witness for C2 on a concrete graph: three nodes, one link joining the
first two. -/
theorem getClusters_connected_iff_witness :
    (([Node.mk "a", Node.mk "b", Node.mk "c"].map Node.id).Nodup) ∧
    (∀ l ∈ [Link.mk "a" "b" 5],
      l.source ∈ [Node.mk "a", Node.mk "b", Node.mk "c"].map Node.id ∧
      l.target ∈ [Node.mk "a", Node.mk "b", Node.mk "c"].map Node.id) ∧
    (∃ res : ClusterResult,
      getClusters [Node.mk "a", Node.mk "b", Node.mk "c"] [Link.mk "a" "b" 5] = some res ∧
      (∀ v ∈ [Node.mk "a", Node.mk "b", Node.mk "c"].map Node.id,
        ∃ c, (v, c) ∈ res.clusterMap) ∧
      (∀ a ca b cb, (a, ca) ∈ res.clusterMap → (b, cb) ∈ res.clusterMap →
        (ca = cb ↔ Connected [Link.mk "a" "b" 5] a b)) ∧
      (∀ a ca b cb, (a, ca) ∈ res.clusterMap → (b, cb) ∈ res.clusterMap →
        ¬ Connected [Link.mk "a" "b" 5] a b → ca ≠ cb) ∧
      (∀ l ∈ [Link.mk "a" "b" 5], ∀ ca cb, (l.source, ca) ∈ res.clusterMap →
        (l.target, cb) ∈ res.clusterMap → ca = cb)) :=
  ⟨by decide, by decide,
    getClusters_connected_iff [Node.mk "a", Node.mk "b", Node.mk "c"]
      [Link.mk "a" "b" 5] (by decide) (by decide)⟩

/-- C10.  Under the precondition that all link endpoints are node ids,
`getClusters` succeeds; every node id receives exactly one cluster id; the
assigned ids are exactly the range below `numClusters`, nondecreasing in
first-visit order; `numClusters` counts the connected components (it equals
the size of any maximal family of pairwise disconnected representatives
covering the nodes, of which one is exhibited); and a node id with no
incident link shares its cluster with no other node id. -/
theorem getClusters_assignment_spec (nodes : List Node) (links : List Link)
    (hl : ∀ l ∈ links, l.source ∈ nodes.map Node.id ∧ l.target ∈ nodes.map Node.id) :
    ∃ res : ClusterResult,
      getClusters nodes links = some res ∧
      (∀ v ∈ nodes.map Node.id, ∃! c, (v, c) ∈ res.clusterMap) ∧
      ((res.clusterMap.map Prod.fst).Nodup) ∧
      (∀ w, w ∈ res.clusterMap.map Prod.fst ↔ w ∈ nodes.map Node.id) ∧
      (∀ p ∈ res.clusterMap, p.2 < res.numClusters) ∧
      (∀ c, c < res.numClusters → ∃ p ∈ res.clusterMap, p.2 = c) ∧
      (res.clusterMap.Pairwise (fun p q => p.2 ≤ q.2)) ∧
      (∃ reps : List String, reps.length = res.numClusters ∧
        (∀ r ∈ reps, r ∈ nodes.map Node.id) ∧
        reps.Pairwise (fun a b => ¬ Connected links a b) ∧
        (∀ v ∈ nodes.map Node.id, ∃ r ∈ reps, Connected links r v)) ∧
      (∀ v ∈ nodes.map Node.id, (∀ l ∈ links, l.source ≠ v ∧ l.target ≠ v) →
        ∀ w ∈ nodes.map Node.id, w ≠ v →
        ∀ cv cw, (v, cv) ∈ res.clusterMap → (w, cw) ∈ res.clusterMap → cv ≠ cw) := by
  obtain ⟨res, heq, hndk, hkeys, hlt, hsurj, hmono, hiff, hreps⟩ :=
    getClusters_spec nodes links hl
  refine ⟨res, heq, ?_, hndk, hkeys, hlt, hsurj, hmono, hreps, ?_⟩
  · intro v hv
    obtain ⟨⟨a, c⟩, hp, hfst⟩ := List.mem_map.mp ((hkeys v).mpr hv)
    refine ⟨c, by rwa [show a = v from hfst] at hp, ?_⟩
    intro c2 hc2
    exact keys_nodup_unique hndk hc2 (by rwa [show a = v from hfst] at hp)
  · intro v hv hnolink w hw hwv cv cw hcv hcw hcc
    have hconn : Connected links v w := (hiff v cv w cw hcv hcw).mp hcc
    rcases connected_touches hconn with heqvw | ⟨l, hlm, hsrc | htgt⟩
    · exact hwv heqvw.symm
    · exact (hnolink l hlm).1 hsrc
    · exact (hnolink l hlm).2 htgt

/-- Witness for C10 on a concrete graph: three nodes, one link joining the
first two. -/
theorem getClusters_assignment_spec_witness :
    (∀ l ∈ [Link.mk "a" "b" 5],
      l.source ∈ [Node.mk "a", Node.mk "b", Node.mk "c"].map Node.id ∧
      l.target ∈ [Node.mk "a", Node.mk "b", Node.mk "c"].map Node.id) ∧
    (∃ res : ClusterResult,
      getClusters [Node.mk "a", Node.mk "b", Node.mk "c"] [Link.mk "a" "b" 5] = some res ∧
      (∀ v ∈ [Node.mk "a", Node.mk "b", Node.mk "c"].map Node.id,
        ∃! c, (v, c) ∈ res.clusterMap) ∧
      ((res.clusterMap.map Prod.fst).Nodup) ∧
      (∀ w, w ∈ res.clusterMap.map Prod.fst ↔
        w ∈ [Node.mk "a", Node.mk "b", Node.mk "c"].map Node.id) ∧
      (∀ p ∈ res.clusterMap, p.2 < res.numClusters) ∧
      (∀ c, c < res.numClusters → ∃ p ∈ res.clusterMap, p.2 = c) ∧
      (res.clusterMap.Pairwise (fun p q => p.2 ≤ q.2)) ∧
      (∃ reps : List String, reps.length = res.numClusters ∧
        (∀ r ∈ reps, r ∈ [Node.mk "a", Node.mk "b", Node.mk "c"].map Node.id) ∧
        reps.Pairwise (fun a b => ¬ Connected [Link.mk "a" "b" 5] a b) ∧
        (∀ v ∈ [Node.mk "a", Node.mk "b", Node.mk "c"].map Node.id,
          ∃ r ∈ reps, Connected [Link.mk "a" "b" 5] r v)) ∧
      (∀ v ∈ [Node.mk "a", Node.mk "b", Node.mk "c"].map Node.id,
        (∀ l ∈ [Link.mk "a" "b" 5], l.source ≠ v ∧ l.target ≠ v) →
        ∀ w ∈ [Node.mk "a", Node.mk "b", Node.mk "c"].map Node.id, w ≠ v →
        ∀ cv cw, (v, cv) ∈ res.clusterMap → (w, cw) ∈ res.clusterMap → cv ≠ cw)) :=
  ⟨by decide,
    getClusters_assignment_spec [Node.mk "a", Node.mk "b", Node.mk "c"]
      [Link.mk "a" "b" 5] (by decide)⟩

/-- C3.  The combined risk level is critical when the threat-intel tier is
critical or the score reaches 80; otherwise high when the tier is high or the
score reaches 60; otherwise medium from score 30; otherwise low.  A critical
or high external tier is never downgraded by a low heuristic score, and the
free analyzer level equals the combined level at tier low. -/
theorem calculateOverallRiskLevel_spec :
    (∀ (score : ℚ) (tier : RiskTier),
      ((tier = RiskTier.critical ∨ score ≥ 80) →
        calculateOverallRiskLevel score tier = RiskTier.critical) ∧
      (¬(tier = RiskTier.critical ∨ score ≥ 80) →
        (tier = RiskTier.high ∨ score ≥ 60) →
        calculateOverallRiskLevel score tier = RiskTier.high) ∧
      (¬(tier = RiskTier.critical ∨ score ≥ 80) →
        ¬(tier = RiskTier.high ∨ score ≥ 60) → score ≥ 30 →
        calculateOverallRiskLevel score tier = RiskTier.medium) ∧
      (¬(tier = RiskTier.critical ∨ score ≥ 80) →
        ¬(tier = RiskTier.high ∨ score ≥ 60) → ¬(score ≥ 30) →
        calculateOverallRiskLevel score tier = RiskTier.low) ∧
      (tier = RiskTier.critical →
        calculateOverallRiskLevel score tier = RiskTier.critical) ∧
      (tier = RiskTier.high →
        calculateOverallRiskLevel score tier = RiskTier.high ∨
        calculateOverallRiskLevel score tier = RiskTier.critical)) ∧
    (∀ score : ℚ, FreeThreatAnalyzer.calculateRiskLevel score =
      calculateOverallRiskLevel score RiskTier.low) := by
  constructor
  · intro score tier
    refine ⟨?_, ?_, ?_, ?_, ?_, ?_⟩
    · intro h
      rw [calculateOverallRiskLevel, if_pos h]
    · intro h1 h2
      rw [calculateOverallRiskLevel, if_neg h1, if_pos h2]
    · intro h1 h2 h3
      rw [calculateOverallRiskLevel, if_neg h1, if_neg h2, if_pos h3]
    · intro h1 h2 h3
      rw [calculateOverallRiskLevel, if_neg h1, if_neg h2, if_neg h3]
    · intro h
      rw [calculateOverallRiskLevel, if_pos (Or.inl h)]
    · intro h
      by_cases h80 : score ≥ 80
      · exact Or.inr (by rw [calculateOverallRiskLevel, if_pos (Or.inr h80)])
      · refine Or.inl ?_
        have h1 : ¬(tier = RiskTier.critical ∨ score ≥ 80) := by
          rintro (hc | hs)
          · rw [h] at hc
            exact RiskTier.noConfusion hc
          · exact h80 hs
        rw [calculateOverallRiskLevel, if_neg h1, if_pos (Or.inl h)]
  · intro score
    have e1 : (RiskTier.low = RiskTier.critical ∨ score ≥ 80) ↔ score ≥ 80 := by
      constructor
      · rintro (h | h)
        · exact RiskTier.noConfusion h
        · exact h
      · exact Or.inr
    have e2 : (RiskTier.low = RiskTier.high ∨ score ≥ 60) ↔ score ≥ 60 := by
      constructor
      · rintro (h | h)
        · exact RiskTier.noConfusion h
        · exact h
      · exact Or.inr
    rw [FreeThreatAnalyzer.calculateRiskLevel, calculateOverallRiskLevel]
    simp only [e1, e2]

/-- Witness for C3: a score of 90 with external tier low is critical, and an
external tier high with score 0 stays high. -/
theorem calculateOverallRiskLevel_spec_witness :
    ((RiskTier.low = RiskTier.critical ∨ (90 : ℚ) ≥ 80) ∧
      calculateOverallRiskLevel 90 RiskTier.low = RiskTier.critical) ∧
    (RiskTier.high = RiskTier.high ∧
      (calculateOverallRiskLevel 0 RiskTier.high = RiskTier.high ∨
       calculateOverallRiskLevel 0 RiskTier.high = RiskTier.critical)) :=
  ⟨⟨Or.inr (by decide),
    (calculateOverallRiskLevel_spec.1 90 RiskTier.low).1 (Or.inr (by decide))⟩,
   ⟨rfl, (calculateOverallRiskLevel_spec.1 0 RiskTier.high).2.2.2.2.2 rfl⟩⟩

/-- Every tier in the list ranks at most the highest risk. -/
theorem rank_le_getHighestRisk (risks : List RiskTier) (t : RiskTier) (ht : t ∈ risks) :
    t.rank ≤ (getHighestRisk risks).rank := by
  rw [getHighestRisk]
  split_ifs with h1 h2 h3
  · cases t <;> simp [RiskTier.rank]
  · cases t
    · simp [RiskTier.rank]
    · simp [RiskTier.rank]
    · simp [RiskTier.rank]
    · exact absurd ht h1
  · cases t
    · simp [RiskTier.rank]
    · simp [RiskTier.rank]
    · exact absurd ht h2
    · exact absurd ht h1
  · cases t
    · simp [RiskTier.rank]
    · exact absurd ht h3
    · exact absurd ht h2
    · exact absurd ht h1

/-- The highest risk of a nonempty list is one of its members. -/
theorem getHighestRisk_mem (risks : List RiskTier) (h : risks ≠ []) :
    getHighestRisk risks ∈ risks := by
  rw [getHighestRisk]
  split_ifs with h1 h2 h3
  · exact h1
  · exact h2
  · exact h3
  · obtain ⟨t, ts, rfl⟩ := List.exists_cons_of_ne_nil h
    cases t
    · exact List.mem_cons_self _ _
    · exact absurd (List.mem_cons_self _ _) h3
    · exact absurd (List.mem_cons_self _ _) h2
    · exact absurd (List.mem_cons_self _ _) h1

/-- C4.  With at least one fulfilled provider result, the merged verdict has
the maximal reported tier (it bounds every reported tier and is itself
reported), categories and sources each the deduplicated union over the
fulfilled results, and confidence the arithmetic mean of the strictly
positive reported confidences whenever one exists. -/
theorem aggregateThreatData_merge (now : Int) (results : List (Except Unit ProviderData))
    (address : String) (hne : validProviderResults results ≠ []) :
    (∀ r ∈ validProviderResults results, ∀ t : RiskTier, r.risk = some t →
      t.rank ≤ (aggregateThreatData now results address).risk.rank) ∧
    ((∃ r ∈ validProviderResults results, r.risk.isSome) →
      ∃ r ∈ validProviderResults results,
        r.risk = some (aggregateThreatData now results address).risk) ∧
    (∀ t : String, t ∈ (aggregateThreatData now results address).categories ↔
      ∃ r ∈ validProviderResults results, t ∈ r.categories.getD []) ∧
    ((aggregateThreatData now results address).categories.Nodup) ∧
    ((((validProviderResults results).map (fun r => r.confidence.getD 0)).filter
        (fun c => decide (0 < c)) ≠ []) →
      (aggregateThreatData now results address).confidence =
        (((validProviderResults results).map (fun r => r.confidence.getD 0)).filter
          (fun c => decide (0 < c))).sum /
        ((((validProviderResults results).map (fun r => r.confidence.getD 0)).filter
          (fun c => decide (0 < c))).length : ℚ)) ∧
    (∀ s : String, s ∈ (aggregateThreatData now results address).sources ↔
      ∃ r ∈ validProviderResults results, s ∈ r.sources.getD []) ∧
    ((aggregateThreatData now results address).sources.Nodup) := by
  have hfalse : (validProviderResults results).isEmpty = false := by
    obtain ⟨a, l, heq⟩ := List.exists_cons_of_ne_nil hne
    rw [heq]
    rfl
  have hout : aggregateThreatData now results address =
      { risk := getHighestRisk ((validProviderResults results).filterMap (fun r => r.risk)),
        categories := setDedup ((validProviderResults results).flatMap
          (fun r => r.categories.getD [])),
        confidence :=
          if (((validProviderResults results).map (fun r => r.confidence.getD 0)).filter
              (fun c => decide (0 < c))).length > 0 then
            (((validProviderResults results).map (fun r => r.confidence.getD 0)).filter
              (fun c => decide (0 < c))).sum /
            ((((validProviderResults results).map (fun r => r.confidence.getD 0)).filter
              (fun c => decide (0 < c))).length : ℚ)
          else 0,
        lastUpdated := now,
        sources := setDedup ((validProviderResults results).flatMap
          (fun r => r.sources.getD [])) } := by
    rw [aggregateThreatData]
    rw [hfalse]
    rfl
  rw [hout]
  refine ⟨?_, ?_, ?_, setDedup_nodup _, ?_, ?_, setDedup_nodup _⟩
  · intro r hr t htr
    exact rank_le_getHighestRisk _ t (List.mem_filterMap.mpr ⟨r, hr, htr⟩)
  · rintro ⟨r, hr, hsome⟩
    have hne2 : (validProviderResults results).filterMap (fun r => r.risk) ≠ [] := by
      obtain ⟨t, ht⟩ := Option.isSome_iff_exists.mp hsome
      exact List.ne_nil_of_mem (List.mem_filterMap.mpr ⟨r, hr, ht⟩)
    obtain ⟨r2, hr2, ht2⟩ := List.mem_filterMap.mp (getHighestRisk_mem _ hne2)
    exact ⟨r2, hr2, ht2⟩
  · intro t
    rw [mem_setDedup, List.mem_flatMap]
  · intro hpos
    rw [if_pos (List.length_pos.mpr hpos)]
  · intro s
    rw [mem_setDedup, List.mem_flatMap]

/-- Witness for C4 at `sampleProviderResults`. -/
theorem aggregateThreatData_merge_witness :
    (validProviderResults sampleProviderResults ≠ []) ∧
    ((∀ r ∈ validProviderResults sampleProviderResults, ∀ t : RiskTier, r.risk = some t →
      t.rank ≤ (aggregateThreatData 0 sampleProviderResults "0xabc").risk.rank) ∧
    ((∃ r ∈ validProviderResults sampleProviderResults, r.risk.isSome) →
      ∃ r ∈ validProviderResults sampleProviderResults,
        r.risk = some (aggregateThreatData 0 sampleProviderResults "0xabc").risk) ∧
    (∀ t : String, t ∈ (aggregateThreatData 0 sampleProviderResults "0xabc").categories ↔
      ∃ r ∈ validProviderResults sampleProviderResults, t ∈ r.categories.getD []) ∧
    ((aggregateThreatData 0 sampleProviderResults "0xabc").categories.Nodup) ∧
    ((((validProviderResults sampleProviderResults).map (fun r => r.confidence.getD 0)).filter
        (fun c => decide (0 < c)) ≠ []) →
      (aggregateThreatData 0 sampleProviderResults "0xabc").confidence =
        (((validProviderResults sampleProviderResults).map
          (fun r => r.confidence.getD 0)).filter (fun c => decide (0 < c))).sum /
        ((((validProviderResults sampleProviderResults).map
          (fun r => r.confidence.getD 0)).filter (fun c => decide (0 < c))).length : ℚ)) ∧
    (∀ s : String, s ∈ (aggregateThreatData 0 sampleProviderResults "0xabc").sources ↔
      ∃ r ∈ validProviderResults sampleProviderResults, s ∈ r.sources.getD []) ∧
    ((aggregateThreatData 0 sampleProviderResults "0xabc").sources.Nodup)) :=
  ⟨by decide, aggregateThreatData_merge 0 sampleProviderResults "0xabc" (by decide)⟩

/-- Counterexample to C5 as stated: when every upstream call fails,
`FreeThreatAnalyzer.analyzeAddress` (the function actually named
`analyzeAddress`) returns an empty sources list, not ["Static Analysis"];
only its confidence matches the claimed 0.3. -/
theorem analyzeAddress_all_failed_counterexample :
    (FreeThreatAnalyzer.analyzeAddress envAllFail "0x123").sources = [] ∧
    (FreeThreatAnalyzer.analyzeAddress envAllFail "0x123").confidence = 0.3 ∧
    ¬((FreeThreatAnalyzer.analyzeAddress envAllFail "0x123").sources = ["Static Analysis"] ∧
      (FreeThreatAnalyzer.analyzeAddress envAllFail "0x123").confidence = 0.3) := by
  have hsrc : (FreeThreatAnalyzer.analyzeAddress envAllFail "0x123").sources = [] := by
    simp [FreeThreatAnalyzer.analyzeAddress, envAllFail, fetchThreatListsScamAddresses,
      checkWithAbuseIPDB, checkWithScamDatabase, checkStarknetAddress]
  have hconf : (FreeThreatAnalyzer.analyzeAddress envAllFail "0x123").confidence = 0.3 := by
    simp only [FreeThreatAnalyzer.analyzeAddress, envAllFail, fetchThreatListsScamAddresses,
      checkWithAbuseIPDB, checkWithScamDatabase, checkStarknetAddress]
    norm_num
  refine ⟨hsrc, hconf, ?_⟩
  rintro ⟨h1, _⟩
  rw [hsrc] at h1
  exact List.noConfusion h1

/-- C5 amended.  The fallback behaviour described by the claim belongs to
the threat-intelligence aggregator (`checkAddress` feeding
`aggregateThreatData`): when every settled provider promise is rejected, the
merge falls back to static analysis and returns a verdict with sources
exactly ["Static Analysis"] and confidence exactly 0.3, never raising. -/
theorem aggregateThreatData_all_failed (now : Int)
    (results : List (Except Unit ProviderData)) (address : String)
    (h : ∀ r ∈ results, r.isOk = false) :
    (aggregateThreatData now results address).sources = ["Static Analysis"] ∧
    (aggregateThreatData now results address).confidence = 0.3 := by
  have hv : validProviderResults results = [] := by
    rw [validProviderResults]
    induction results with
    | nil => rfl
    | cons r rs ih =>
      have hr := h r (List.mem_cons_self _ _)
      cases r with
      | ok v => exact Bool.noConfusion hr
      | error e =>
        rw [List.filterMap_cons]
        exact ih (fun r hr2 => h r (List.mem_cons_of_mem _ hr2))
  rw [aggregateThreatData]
  rw [hv]
  exact ⟨rfl, rfl⟩

/-- Witness for C5 amended: two rejected providers. -/
theorem aggregateThreatData_all_failed_witness :
    (∀ r ∈ [(Except.error () : Except Unit ProviderData), Except.error ()], r.isOk = false) ∧
    ((aggregateThreatData 0 [Except.error (), Except.error ()] "0xdead").sources =
      ["Static Analysis"] ∧
     (aggregateThreatData 0 [Except.error (), Except.error ()] "0xdead").confidence = 0.3) :=
  ⟨by decide, aggregateThreatData_all_failed 0 [Except.error (), Except.error ()] "0xdead"
    (by decide)⟩

/-- Counterexample to C6 as stated: for a single incoming transaction of
amount 50,000 whose timestamp equals the evaluation time, `walletAge` also
fires (the wallet looks less than 7 days old), so the total is 35 and the
level medium, not 15 and low. -/
theorem largeInflow_scenario_counterexample :
    ((aggregateRiskFactors 1700000000000 wdC6).breakdown.lookup "walletAge" = some 20) ∧
    (aggregateRiskFactors 1700000000000 wdC6).score = 35 ∧
    deriveRiskLevel (aggregateRiskFactors 1700000000000 wdC6).score = SimpleRiskLevel.medium ∧
    ¬((aggregateRiskFactors 1700000000000 wdC6).score = 15 ∧
      deriveRiskLevel (aggregateRiskFactors 1700000000000 wdC6).score = SimpleRiskLevel.low) := by
  have hw : checkWalletAge 1700000000000 wdC6.metrics wdC6.transactions = 20 := by
    rw [checkWalletAge_eq]
    decide
  have hagg : aggregateRiskFactors 1700000000000 wdC6 =
      { score := 35,
        breakdown := [("highFrequency", 0), ("mixerUsage", 0), ("scamContract", 0),
          ("abnormalGas", 0), ("receivedFromBlacklist", 0), ("sentToBlacklist", 0),
          ("faucetOnly", 0), ("scamTokens", 0), ("largeInflowOutflow", 15),
          ("walletAge", 20), ("totalTransactions", 0), ("socialLinks", 0), ("ogNFTs", 0),
          ("washTrading", 0), ("circularTransactions", 0), ("anomalies", 0)] } := by
    simp only [aggregateRiskFactors]
    rw [hw]
    decide
  rw [hagg]
  refine ⟨by decide, by decide, by decide, by decide⟩

/-- C6 amended.  For a wallet holding a single incoming transaction of
amount 50,000 — provided its gas is not above 1,000,000 and its timestamp is
at least 7 days before the evaluation time, which the counterexample shows
is necessary — `largeInflowOutflow` contributes 15, every other factor 0,
the total score is 15 and the derived level is low (the counterparty is
arbitrary: the blacklist is empty). -/
theorem largeInflow_scenario_amended (now : Int) (tx : Transaction) (addr : String)
    (htype : tx.type = TxType.incoming) (hamt : tx.amount = 50000)
    (hgas : tx.gasUsed ≤ 1000000) (hage : now - tx.timestamp ≥ 604800000) :
    aggregateRiskFactors now ⟨addr, [tx], [], ⟨1, "0", 1, 1, 1⟩⟩ =
      { score := 15,
        breakdown := [("highFrequency", 0), ("mixerUsage", 0), ("scamContract", 0),
          ("abnormalGas", 0), ("receivedFromBlacklist", 0), ("sentToBlacklist", 0),
          ("faucetOnly", 0), ("scamTokens", 0), ("largeInflowOutflow", 15),
          ("walletAge", 0), ("totalTransactions", 0), ("socialLinks", 0), ("ogNFTs", 0),
          ("washTrading", 0), ("circularTransactions", 0), ("anomalies", 0)] } ∧
    deriveRiskLevel 15 = SimpleRiskLevel.low := by
  have h1 : checkHighFrequency now [tx] = 0 := by
    have hts : ¬(now - 3600000 < tx.timestamp) := by omega
    simp [checkHighFrequency, hts]
  have h2 : checkMixerUsage [tx] = 0 := by
    simp [checkMixerUsage, MIXER_ADDRESSES]
  have h3 : checkScamContractInteraction [tx] = 0 := by
    simp [checkScamContractInteraction, SCAM_CONTRACTS]
  have h4 : checkAbnormalGas [tx] = 0 := by
    have hg : ¬(1000000 < tx.gasUsed) := by omega
    simp [checkAbnormalGas, hg]
  have h5 : checkReceivedFromBlacklist [tx] = 0 := by
    simp [checkReceivedFromBlacklist, BLACKLISTED_ADDRESSES]
  have h6 : checkSentToBlacklist [tx] = 0 := by
    simp [checkSentToBlacklist, BLACKLISTED_ADDRESSES]
  have h7 : checkFaucetOnly [tx] = 0 := rfl
  have h8 : checkScamTokens [] = 0 := rfl
  have h9 : checkLargeInflowOutflow [tx] = 15 := by
    have hb : (10000 : ℚ) < tx.amount := by
      rw [hamt]
      norm_num
    simp [checkLargeInflowOutflow, hb]
  have h10 : checkWalletAge now ⟨1, "0", 1, 1, 1⟩ [tx] = 0 := by
    have hcond : ¬(now - tx.timestamp < 604800000) := by omega
    rw [checkWalletAge_eq]
    simp [hcond]
  have h11 : checkTotalTransactions ⟨1, "0", 1, 1, 1⟩ = 0 := rfl
  have h14 : checkWashTrading [tx] = 0 := checkWashTrading_of_few [tx] (by simp)
  have h15 : checkCircularTransactions [tx] = 0 := by
    apply checkCircular_of_all_incoming
    intro t ht
    rw [List.mem_singleton] at ht
    subst ht
    exact htype
  have h16 : checkAnomalies [tx] = 0 := rfl
  constructor
  · simp only [aggregateRiskFactors]
    rw [h1, h2, h3, h4, h5, h6, h7, h8, h9, h10, h11, h14, h15, h16]
    rfl
  · rfl

/-- Witness for C6 amended: a 50,000 incoming transaction timestamped 7 days
before the evaluation instant. -/
theorem largeInflow_scenario_amended_witness :
    ((Transaction.mk "h" TxType.incoming "ETH" 50000 "X" 0 0 none).type = TxType.incoming) ∧
    ((Transaction.mk "h" TxType.incoming "ETH" 50000 "X" 0 0 none).amount = 50000) ∧
    ((Transaction.mk "h" TxType.incoming "ETH" 50000 "X" 0 0 none).gasUsed ≤ 1000000) ∧
    ((604800000 : Int) - (Transaction.mk "h" TxType.incoming "ETH" 50000 "X" 0 0 none).timestamp ≥
      604800000) ∧
    (aggregateRiskFactors 604800000
        ⟨"0xW", [Transaction.mk "h" TxType.incoming "ETH" 50000 "X" 0 0 none], [],
          ⟨1, "0", 1, 1, 1⟩⟩ =
      { score := 15,
        breakdown := [("highFrequency", 0), ("mixerUsage", 0), ("scamContract", 0),
          ("abnormalGas", 0), ("receivedFromBlacklist", 0), ("sentToBlacklist", 0),
          ("faucetOnly", 0), ("scamTokens", 0), ("largeInflowOutflow", 15),
          ("walletAge", 0), ("totalTransactions", 0), ("socialLinks", 0), ("ogNFTs", 0),
          ("washTrading", 0), ("circularTransactions", 0), ("anomalies", 0)] } ∧
      deriveRiskLevel 15 = SimpleRiskLevel.low) :=
  ⟨rfl, rfl, by decide, by decide,
    largeInflow_scenario_amended 604800000
      (Transaction.mk "h" TxType.incoming "ETH" 50000 "X" 0 0 none) "0xW"
      rfl rfl (by decide) (by decide)⟩

/-- An if-then-else over 0 takes one of its two written values. -/
theorem ite_zero_or (c : Prop) [Decidable c] (w : Nat) :
    (if c then w else 0) = 0 ∨ (if c then w else 0) = w := by
  split
  · exact Or.inr rfl
  · exact Or.inl rfl

/-- An if-then-else over 0 is bounded by its positive value. -/
theorem ite_zero_le (c : Prop) [Decidable c] (w : Nat) : (if c then w else 0) ≤ w := by
  split
  · exact Nat.le_refl w
  · exact Nat.zero_le w

/-- `checkWalletAge` contributes 0 or 20. -/
theorem checkWalletAge_binary (now : Int) (m : Metrics) (txs : List Transaction) :
    checkWalletAge now m txs = 0 ∨ checkWalletAge now m txs = 20 := by
  rw [checkWalletAge_eq]
  cases txs with
  | nil => exact Or.inl rfl
  | cons t ts => exact ite_zero_or _ 20

/-- C9.  Every evaluator contributes either 0 or its fixed weight, so the
aggregate score always lies within 0 and 300, the sum of all weights; the
score is not clamped to 100, and a concrete wallet reaches 140. -/
theorem riskFactors_binary_bounded_uncapped :
    (∀ (now : Int) (wd : WalletData),
      (checkHighFrequency now wd.transactions = 0 ∨
        checkHighFrequency now wd.transactions = 20) ∧
      (checkMixerUsage wd.transactions = 0 ∨ checkMixerUsage wd.transactions = 30) ∧
      (checkScamContractInteraction wd.transactions = 0 ∨
        checkScamContractInteraction wd.transactions = 30) ∧
      (checkAbnormalGas wd.transactions = 0 ∨ checkAbnormalGas wd.transactions = 10) ∧
      (checkReceivedFromBlacklist wd.transactions = 0 ∨
        checkReceivedFromBlacklist wd.transactions = 40) ∧
      (checkSentToBlacklist wd.transactions = 0 ∨
        checkSentToBlacklist wd.transactions = 40) ∧
      checkFaucetOnly wd.transactions = 0 ∧
      (checkScamTokens wd.tokenBalances = 0 ∨ checkScamTokens wd.tokenBalances = 20) ∧
      (checkLargeInflowOutflow wd.transactions = 0 ∨
        checkLargeInflowOutflow wd.transactions = 15) ∧
      (checkWalletAge now wd.metrics wd.transactions = 0 ∨
        checkWalletAge now wd.metrics wd.transactions = 20) ∧
      (checkTotalTransactions wd.metrics = 0 ∨ checkTotalTransactions wd.metrics = 10) ∧
      checkSocialLinks = 0 ∧ checkOGNFTs = 0 ∧
      (checkWashTrading wd.transactions = 0 ∨ checkWashTrading wd.transactions = 25) ∧
      (checkCircularTransactions wd.transactions = 0 ∨
        checkCircularTransactions wd.transactions = 25) ∧
      (checkAnomalies wd.transactions = 0 ∨ checkAnomalies wd.transactions = 15) ∧
      (aggregateRiskFactors now wd).score ≤ 300) ∧
    (∃ (now : Int) (wd : WalletData), 100 < (aggregateRiskFactors now wd).score) := by
  constructor
  · intro now wd
    have han : checkAnomalies wd.transactions = 0 ∨ checkAnomalies wd.transactions = 15 := by
      rw [checkAnomalies]
      split
      · exact Or.inl rfl
      · exact ite_zero_or _ 15
    refine ⟨ite_zero_or _ 20, ite_zero_or _ 30, ite_zero_or _ 30, ite_zero_or _ 10,
      ite_zero_or _ 40, ite_zero_or _ 40, rfl, ite_zero_or _ 20, ite_zero_or _ 15,
      checkWalletAge_binary now wd.metrics wd.transactions, ite_zero_or _ 10, rfl, rfl,
      ite_zero_or _ 25, ite_zero_or _ 25, han, ?_⟩
    have b1 : checkHighFrequency now wd.transactions ≤ 20 := ite_zero_le _ 20
    have b2 : checkMixerUsage wd.transactions ≤ 30 := ite_zero_le _ 30
    have b3 : checkScamContractInteraction wd.transactions ≤ 30 := ite_zero_le _ 30
    have b4 : checkAbnormalGas wd.transactions ≤ 10 := ite_zero_le _ 10
    have b5 : checkReceivedFromBlacklist wd.transactions ≤ 40 := ite_zero_le _ 40
    have b6 : checkSentToBlacklist wd.transactions ≤ 40 := ite_zero_le _ 40
    have b7 : checkFaucetOnly wd.transactions = 0 := rfl
    have b8 : checkScamTokens wd.tokenBalances ≤ 20 := ite_zero_le _ 20
    have b9 : checkLargeInflowOutflow wd.transactions ≤ 15 := ite_zero_le _ 15
    have b10 : checkWalletAge now wd.metrics wd.transactions ≤ 20 := by
      rcases checkWalletAge_binary now wd.metrics wd.transactions with h | h <;> omega
    have b11 : checkTotalTransactions wd.metrics ≤ 10 := ite_zero_le _ 10
    have b12 : checkSocialLinks = 0 := rfl
    have b13 : checkOGNFTs = 0 := rfl
    have b14 : checkWashTrading wd.transactions ≤ 25 := ite_zero_le _ 25
    have b15 : checkCircularTransactions wd.transactions ≤ 25 := ite_zero_le _ 25
    have b16 : checkAnomalies wd.transactions ≤ 15 := by
      rcases han with h | h <;> omega
    simp only [aggregateRiskFactors, List.map_cons, List.map_nil, List.sum_cons,
      List.sum_nil]
    omega
  · refine ⟨1700000000000, highRiskWallet, ?_⟩
    have hhf : checkHighFrequency 1700000000000 highRiskTxs = 20 := by decide
    have hmx : checkMixerUsage highRiskTxs = 0 := by decide
    have hsc : checkScamContractInteraction highRiskTxs = 0 := by decide
    have hga : checkAbnormalGas highRiskTxs = 10 := by decide
    have hrb : checkReceivedFromBlacklist highRiskTxs = 0 := by decide
    have hsb : checkSentToBlacklist highRiskTxs = 0 := by decide
    have hli : checkLargeInflowOutflow highRiskTxs = 15 := by decide
    have hwa : checkWalletAge 1700000000000 ⟨201, "0", 1, 1, 1⟩ highRiskTxs = 20 := by
      rw [checkWalletAge_eq]
      decide
    have htt : checkTotalTransactions ⟨201, "0", 1, 1, 1⟩ = 10 := by decide
    have hwt : checkWashTrading highRiskTxs = 25 := by decide
    have hct : checkCircularTransactions highRiskTxs = 25 := by
      apply checkCircular_of_pair highRiskTxs
        (Transaction.mk "t1" TxType.incoming "ETH" 1 "C" 1699999999000 0 none)
        (Transaction.mk "t7" TxType.outgoing "ETH" 1 "C" 1699999993000 0 none)
        (by decide) (by decide) rfl (by decide) rfl rfl (by decide) (by norm_num)
    have han : checkAnomalies highRiskTxs = 15 := by
      apply checkAnomalies_of_large highRiskTxs (by decide) 1 (by decide)
        (Transaction.mk "t6" TxType.incoming "ETH" 50000 "C" 1699999994000 2000000 none)
        (by decide) (by norm_num)
    have hscore : (aggregateRiskFactors 1700000000000 highRiskWallet).score = 140 := by
      simp only [aggregateRiskFactors, highRiskWallet]
      rw [hhf, hmx, hsc, hga, hrb, hsb, hli, hwa, htt, hwt, hct, han]
      rfl
    omega
